import Mathlib

/-!
# gerbil: the GUI controller core (`gui/controller/controller.cpp`)

A shallow embedding of the `Controller` class: the subscription registry it
owns, the ROI it stores, and the requests it sends to its collaborators
(Image Model, Distribution View Controller, Labeling / Illumination / False
Color models, background task queue).

* Every method of the controller is a function from the controller state to
  the new state and the list of requests it issued, in program order.
* The representation enumeration (`representation::t`) and the false coloring
  enumeration (`FalseColoring::Type`) live in headers that are not part of the
  sources at hand; they are type parameters `Rep` and `FC`, and the list
  `representation::all()` is a parameter `all`.
* C++ `int` values are embedded as integers (`Int`) within the 32 bit range.
  The only arithmetic in the controller is in the constructor: the product
  of `cv::Rect::area()`, which can leave that range and is reduced to it by
  `wrapInt32`, and the centring of the initial ROI, which cannot.
-/

set_option autoImplicit false
set_option linter.unusedSectionVars false

/-! ## Data model -/

/-- Rectangle `cv::Rect` (OpenCV `Rect_<int>`): top-left corner and extent. -/
structure Rect where
  x : Int
  y : Int
  width : Int
  height : Int
deriving DecidableEq, Repr

namespace Rect

/-- Default-constructed rectangle `cv::Rect()`: all four fields are zero. -/
def empty : Rect := ⟨0, 0, 0, 0⟩

/-- A 32 bit `int` result: the value itself when it lies in
[-2^31, 2^31 - 1], and its two's complement wrap-around otherwise (what the
compiled product does on overflow). -/
def wrapInt32 (n : Int) : Int := (n + 2147483648) % 4294967296 - 2147483648

/-- Member `cv::Rect::area()`: `width * height`, multiplied in 32 bit `int`. -/
def area (r : Rect) : Int := wrapInt32 (r.width * r.height)

end Rect

/-- Identity of a subscriber (`QObject*`), compared by address. -/
abbrev QObject := Nat

/-- Handle to a shared image buffer (`SharedMultiImgPtr`). -/
abbrev SharedMultiImgPtr := Nat

/-- Handle to a distribution view dataset (`sets_ptr`); `none` is the null
pointer a default-constructed `QMap` entry holds. -/
abbrev sets_ptr := Option Nat

/-- Composite key `ImageBandId` of subscriptions.h: representation and band. -/
structure ImageBandId (Rep : Type) where
  repr : Rep
  bandx : Int
deriving DecidableEq

/-- Pair `Subscription<IdType>` of subscriptions.h: who subscribed to what. -/
structure Subscription (Id : Type) where
  subscriber : QObject
  subsid : Id
deriving DecidableEq

/-- Registry `Subscriptions` of subscriptions.h: three hash sets of pairs. Each
`std::tr1::unordered_set` is embedded as the list of its elements in iteration
order; `setInsert` and `setErase` below keep set semantics on every list. -/
structure Subscriptions (Rep FC : Type) where
  repr : List (Subscription Rep)
  imageBand : List (Subscription (ImageBandId Rep))
  falseColor : List (Subscription FC)
deriving DecidableEq

/-- Requests the controller sends to its collaborators, one constructor per
member function called in controller.cpp. -/
inductive Call (Rep FC : Type) where
  /-- Request `im->spawn(type, roi, bands)` -/
  | spawn (type : Rep) (roi : Rect) (bands : Int)
  /-- Request `im->invalidateROI()` -/
  | invalidateROI
  /-- Request `im->computeBand(repr, bandId)` -/
  | computeBand (repr : Rep) (bandx : Int)
  /-- Request `dvc->setImage(type, image, roi)` -/
  | setImage (type : Rep) (image : SharedMultiImgPtr) (roi : Rect)
  /-- Request `dvc->addImage(type, sets, add, roi)` -/
  | addImage (type : Rep) (sets : sets_ptr) (add : List Rect) (roi : Rect)
  /-- Request `dvc->subImage(type, sub, roi)` -/
  | subImage (type : Rep) (sub : List Rect) (roi : Rect)
  /-- Request `lm->updateROI(roi)` -/
  | lmUpdateROI (roi : Rect)
  /-- Request `illumm->setRoi(roi)` -/
  | illummSetRoi (roi : Rect)
  /-- Request `fm->requestColoring(coloring, recalc)` -/
  | requestColoring (coloring : FC) (recalc : Bool)
  /-- Request `fm->cancelComputation(coloring)` -/
  | cancelComputation (coloring : FC)
  /-- Signal `emit pendingFalseColorUpdate(coloring)` -/
  | pendingFalseColorUpdate (coloring : FC)
  /-- Request `queue.cancelTasks()` -/
  | queueCancelTasks
  /-- Request `queue.halt()` -/
  | queueHalt
  /-- Request `queuethread->join()` -/
  | queuethreadJoin
  /-- Request `startQueue()`: the worker thread is started -/
  | startQueue
  /-- Request `im->loadImage(filename)` -/
  | loadImage
  /-- Request `exit(code)`: the process terminates -/
  | exit (code : Int)
  /-- Request `new MainWindow(limited_mode)` -/
  | newMainWindow
  /-- Request `window->initUI(filename)` -/
  | windowInitUI
  /-- Request `initFalseColor()` -/
  | initFalseColor
  /-- Request `lm->setDimensions(height, width)` -/
  | lmSetDimensions (height width : Int)
  /-- Request `initIlluminant()` -/
  | initIlluminant
  /-- Request `initGraphSegmentation()` -/
  | initGraphSegmentation
  /-- Request `dvc->init()` -/
  | dvcInit
  /-- Request `initDocks()` -/
  | initDocks
  /-- Request `window->initSignals(this, dvc)` -/
  | windowInitSignals
  /-- Request `lm->addLabel()` -/
  | lmAddLabel
  /-- Request `lm->loadLabeling(labelfile)` -/
  | lmLoadLabeling
  /-- Request `dvc->initSubscriptions()` -/
  | dvcInitSubscriptions
  /-- Request `window->show()` -/
  | windowShow
deriving DecidableEq

/-- Answers of the collaborators that the controller reads back during one
call: the Image Model ROI, the rectangle-difference transform of rectangles.h
(result: profitable, `sub`, `add`), the image handle of a representation and
the dataset handle `dvc->subImage` returns. -/
structure Env (Rep : Type) where
  getROI : Rect
  rectTransform : Rect → Rect → Bool × List Rect × List Rect
  getImage : Rep → SharedMultiImgPtr
  subImage : Rep → List Rect → Rect → sets_ptr

/-- State of the controller that the routing and ROI logic reads and writes:
the stored ROI `m_roi` and the registry `subs`. -/
structure Controller (Rep FC : Type) where
  m_roi : Rect
  subs : Subscriptions Rep FC
deriving DecidableEq

section Registry

variable {α : Type} [DecidableEq α]

/-- Member `unordered_set::insert`: nothing happens when the element is
already present. -/
def setInsert (x : α) (s : List α) : List α :=
  if x ∈ s then s else s ++ [x]

/-- Member `unordered_set::erase(key)`: removes the element equal to `key`,
nothing happens when there is none. -/
def setErase (x : α) (s : List α) : List α :=
  s.filter (fun y => decide (y ≠ x))

/-- Modelled from the spec: the query `isSubscribed(id, set)` of
subscriptions.h, which is not among the sources: whether any entry exists for
the topic. -/
def isSubscribed (id : α) (subs : List (Subscription α)) : Bool :=
  subs.any (fun sub => decide (sub.subsid = id))

/-- Modelled from the spec: the helper `subscribe(subscriber, id, set)` of
subscriptions.h, which is not among the sources: inserts the pair and returns
true iff it is the first subscriber for that exact topic. -/
def subscribe (subscriber : QObject) (id : α) (subs : List (Subscription α)) :
    Bool × List (Subscription α) :=
  (!isSubscribed id subs, setInsert ⟨subscriber, id⟩ subs)

end Registry

/-- Modelled from the spec: the predicate `FalseColoring::isBasedOn` of
falsecoloring.h, which is not among the sources: the variant's basis
representation equals the given one. -/
def isBasedOn {Rep FC : Type} [DecidableEq Rep] (basis : FC → Rep)
    (coloring : FC) (repr : Rep) : Bool :=
  decide (basis coloring = repr)

namespace Controller

variable {Rep FC : Type} [DecidableEq Rep] [DecidableEq FC]

/-! ## Controller methods -/

/-- Method `Controller::haveSubscriber`: scan the representation set for an
entry with this topic. -/
def haveSubscriber (c : Controller Rep FC) (type : Rep) : Bool :=
  c.subs.repr.any (fun sub => decide (sub.subsid = type))

/-- Method `Controller::processSubscribeRepresentation`. -/
def processSubscribeRepresentation (E : Env Rep) (c : Controller Rep FC)
    (subscriber : QObject) (repr : Rep) : Controller Rep FC × List (Call Rep FC) :=
  let r := subscribe subscriber repr c.subs.repr
  let c1 := { c with subs := { c.subs with repr := r.2 } }
  if r.1 then
    (c1, [Call.spawn repr c.m_roi (-1), Call.setImage repr (E.getImage repr) c.m_roi])
  else
    (c1, [])

/-- Method `Controller::processUnsubscribeRepresentation`. -/
def processUnsubscribeRepresentation (c : Controller Rep FC)
    (subscriber : QObject) (repr : Rep) : Controller Rep FC × List (Call Rep FC) :=
  ({ c with subs := { c.subs with repr := setErase ⟨subscriber, repr⟩ c.subs.repr } }, [])

/-- Method `Controller::processSubscribeImageBand`. -/
def processSubscribeImageBand (E : Env Rep) (c : Controller Rep FC)
    (subscriber : QObject) (repr : Rep) (bandId : Int) :
    Controller Rep FC × List (Call Rep FC) :=
  let p := processSubscribeRepresentation E c subscriber repr
  let r := subscribe subscriber (ImageBandId.mk repr bandId) p.1.subs.imageBand
  let c2 := { p.1 with subs := { p.1.subs with imageBand := r.2 } }
  if r.1 then (c2, p.2 ++ [Call.computeBand repr bandId]) else (c2, p.2)

/-- Method `Controller::processUnsubscribeImageBand`. -/
def processUnsubscribeImageBand (c : Controller Rep FC)
    (subscriber : QObject) (repr : Rep) (bandId : Int) :
    Controller Rep FC × List (Call Rep FC) :=
  let c1 := { c with subs := { c.subs with
    imageBand := setErase ⟨subscriber, ImageBandId.mk repr bandId⟩ c.subs.imageBand } }
  processUnsubscribeRepresentation c1 subscriber repr

/-- Method `Controller::processSubscribeFalseColor`. The one-argument call
`fm->requestColoring(coloring)` is a request without recalc. -/
def processSubscribeFalseColor (E : Env Rep) (basis : FC → Rep) (c : Controller Rep FC)
    (subscriber : QObject) (coloring : FC) : Controller Rep FC × List (Call Rep FC) :=
  let p := processSubscribeRepresentation E c subscriber (basis coloring)
  let r := subscribe subscriber coloring p.1.subs.falseColor
  let c2 := { p.1 with subs := { p.1.subs with falseColor := r.2 } }
  if r.1 then (c2, p.2 ++ [Call.requestColoring coloring false]) else (c2, p.2)

/-- Method `Controller::processUnsubscribeFalseColor`. -/
def processUnsubscribeFalseColor (basis : FC → Rep) (c : Controller Rep FC)
    (subscriber : QObject) (coloring : FC) : Controller Rep FC × List (Call Rep FC) :=
  let c1 := { c with subs := { c.subs with
    falseColor := setErase ⟨subscriber, coloring⟩ c.subs.falseColor } }
  let t1 : List (Call Rep FC) :=
    if !isSubscribed coloring c1.subs.falseColor then [Call.cancelComputation coloring] else []
  let p := processUnsubscribeRepresentation c1 subscriber (basis coloring)
  (p.1, t1 ++ p.2)

/-- Method `Controller::processRecalcFalseColor`. -/
def processRecalcFalseColor (c : Controller Rep FC) (coloringType : FC) :
    Controller Rep FC × List (Call Rep FC) :=
  if isSubscribed coloringType c.subs.falseColor then
    (c, [Call.requestColoring coloringType true])
  else (c, [])

/-- First loop of `Controller::processImageUpdate`: the set `bandUpdates` of
subscribed band ids whose representation is `repr`. -/
def bandUpdates (c : Controller Rep FC) (repr : Rep) : List (ImageBandId Rep) :=
  c.subs.imageBand.foldl
    (fun acc sub => if repr = sub.subsid.repr then setInsert sub.subsid acc else acc) []

/-- Third loop of `Controller::processImageUpdate`: the set `fcUpdates` of
subscribed false colorings based on `repr`. -/
def fcUpdates (basis : FC → Rep) (c : Controller Rep FC) (repr : Rep) : List FC :=
  c.subs.falseColor.foldl
    (fun acc sub => if isBasedOn basis sub.subsid repr then setInsert sub.subsid acc else acc) []

/-- Method `Controller::processImageUpdate`. -/
def processImageUpdate (basis : FC → Rep) (c : Controller Rep FC) (repr : Rep) :
    Controller Rep FC × List (Call Rep FC) :=
  (c, (bandUpdates c repr).map (fun ib => Call.computeBand ib.repr ib.bandx)
      ++ (fcUpdates basis c repr).flatMap
          (fun coloring => [Call.pendingFalseColorUpdate coloring,
                            Call.requestColoring coloring false]))

/-- Entry `sets[type]` of the `QMap` filled by the first step of `updateROI`:
the stored handle, or the null handle when the key is absent. -/
def setsLookup (sets : List (Rep × sets_ptr)) (type : Rep) : sets_ptr :=
  match sets.find? (fun e => decide (e.1 = type)) with
  | some e => e.2
  | none => none

/-- Assignment `sets[type] = v` on the `QMap`. -/
def setsAssign (sets : List (Rep × sets_ptr)) (type : Rep) (v : sets_ptr) :
    List (Rep × sets_ptr) :=
  (type, v) :: sets.filter (fun e => decide (e.1 ≠ type))

/-- First step of `Controller::updateROI` (recycle pass): for every subscribed
representation of `all`, in order, call `dvc->subImage` and store the handle. -/
def recyclePass (E : Env Rep) (c : Controller Rep FC) (sub : List Rect) (roi : Rect) :
    List Rep → List (Rep × sets_ptr) → List (Rep × sets_ptr) × List (Call Rep FC)
  | [], sets => (sets, [])
  | type :: rest, sets =>
    if haveSubscriber c type then
      let r := recyclePass E c sub roi rest (setsAssign sets type (E.subImage type sub roi))
      (r.1, Call.subImage type sub roi :: r.2)
    else recyclePass E c sub roi rest sets

/-- Third step of `Controller::updateROI` (payload pass): for every subscribed
representation of `all`, in order, spawn and then update the distribution
view. -/
def payloadPass (E : Env Rep) (c : Controller Rep FC) (reuse : Bool)
    (sets : List (Rep × sets_ptr)) (add : List Rect) (roi : Rect) (bands : Int) :
    List Rep → List (Call Rep FC)
  | [] => []
  | type :: rest =>
    if haveSubscriber c type then
      Call.spawn type roi bands ::
        (if reuse then Call.addImage type (setsLookup sets type) add roi
         else Call.setImage type (E.getImage type) roi) ::
        payloadPass E c reuse sets add roi bands rest
    else payloadPass E c reuse sets add roi bands rest

/-- Outcome of one `Controller::updateROI` call, with its intermediate values
kept for inspection. -/
structure UpdateROIResult (Rep FC : Type) where
  /-- controller state after the call -/
  ctrl : Controller Rep FC
  /-- local `roi` after the resolve step -/
  roi : Rect
  /-- local `reuse` after the profitability test -/
  reuse : Bool
  /-- local `sub`: regions to discard -/
  sub : List Rect
  /-- local `add`: regions to add -/
  add : List Rect
  /-- local `sets` after the first step -/
  sets : List (Rep × sets_ptr)
  /-- requests of the preparation step (`im->invalidateROI()`) -/
  prepare : List (Call Rep FC)
  /-- requests of the first step -/
  recycle : List (Call Rep FC)
  /-- requests of the second step -/
  metadata : List (Call Rep FC)
  /-- requests of the third step -/
  payload : List (Call Rep FC)

/-- All requests of one `updateROI` call in program order. -/
def UpdateROIResult.trace (r : UpdateROIResult Rep FC) : List (Call Rep FC) :=
  r.prepare ++ r.recycle ++ r.metadata ++ r.payload

/-- Method `Controller::updateROI(reuse, roi, bands)`. -/
def updateROIResult (E : Env Rep) (all : List Rep) (c : Controller Rep FC)
    (reuse : Bool) (roi : Rect) (bands : Int) : UpdateROIResult Rep FC :=
  -- no new ROI provided
  let roi1 := if Rect.empty = roi then c.m_roi else roi
  let c1 : Controller Rep FC := if Rect.empty = roi then c else { c with m_roi := roi }
  -- prepare incremental update and test worthiness
  let t := E.rectTransform E.getROI roi1
  let sub : List Rect := if reuse then t.2.1 else []
  let add : List Rect := if reuse then t.2.2 else []
  let reuse1 := if reuse then t.1 else false
  let prepare : List (Call Rep FC) := if reuse then [] else [Call.invalidateROI]
  -- first step: recycle existing payload
  let rec1 : List (Rep × sets_ptr) × List (Call Rep FC) :=
    if reuse1 then recyclePass E c1 sub roi1 all [] else ([], [])
  { ctrl := c1
    roi := roi1
    reuse := reuse1
    sub := sub
    add := add
    sets := rec1.1
    prepare := prepare
    recycle := rec1.2
    -- second step: update metadata
    metadata := [Call.lmUpdateROI roi1, Call.illummSetRoi roi1]
    -- third step: update payload
    payload := payloadPass E c1 reuse1 rec1.1 add roi1 bands all }

/-- Method `Controller::updateROI` as a state transformer with its trace. -/
def updateROI (E : Env Rep) (all : List Rep) (c : Controller Rep FC)
    (reuse : Bool) (roi : Rect) (bands : Int) : Controller Rep FC × List (Call Rep FC) :=
  let r := updateROIResult E all c reuse roi bands
  (r.ctrl, r.trace)

/-- Slot `Controller::spawnROI(roi)`: ROI update that may reuse data. The
call `spawnROI()` of the constructor passes the default `cv::Rect()`. The
argument `bands` is left to the default of the declaration in controller.h,
taken to be -1, the value `processSubscribeRepresentation` passes to `spawn`. -/
def spawnROI (E : Env Rep) (all : List Rep) (c : Controller Rep FC) (roi : Rect) :
    Controller Rep FC × List (Call Rep FC) :=
  updateROI E all c true roi (-1)

/-- Slot `Controller::invalidateROI(roi)`: ROI update without reuse. -/
def invalidateROI (E : Env Rep) (all : List Rep) (c : Controller Rep FC) (roi : Rect) :
    Controller Rep FC × List (Call Rep FC) :=
  updateROI E all c false roi (-1)

/-- Slot `Controller::rescaleSpectrum(bands)`. -/
def rescaleSpectrum (E : Env Rep) (all : List Rep) (c : Controller Rep FC) (bands : Int) :
    Controller Rep FC × List (Call Rep FC) :=
  let p := updateROI E all c false Rect.empty bands
  (p.1, Call.queueCancelTasks :: p.2)

/-- Method `Controller::stopQueue`. -/
def stopQueue : List (Call Rep FC) :=
  [Call.queueHalt, Call.queuethreadJoin]

/-- Lines 121-128 of the constructor: the initial ROI is the image extent,
or a centred window of at most 512x512 when `m_roi.area()` exceeds 262144.
The products `0.5*(...)` are doubles converted back to `int`, which
truncates toward zero. -/
def initialROI (dimensions : Rect) : Rect :=
  let m_roi := dimensions
  if m_roi.area > 262144 then
    let m1 := { m_roi with width := min m_roi.width 512 }
    let m2 := { m1 with height := min m1.height 512 }
    let m3 := { m2 with x := Int.tdiv (dimensions.width - m2.width) 2 }
    { m3 with y := Int.tdiv (dimensions.height - m3.height) 2 }
  else m_roi

/-- Outcome of the constructor: the requests it issued in program order, and
either the exit code of the process or the constructed controller. -/
structure CtorResult (Rep FC : Type) where
  trace : List (Call Rep FC)
  result : Except Int (Controller Rep FC)

/-- Constructor `Controller::Controller`. `dimensions` is what
`im->loadImage` returned, `IMG` is `representation::IMG`, `this` the identity
of the controller, and `initSubscriptions` stands for the effect of
`dvc->initSubscriptions()`, whose code is not among the sources. The signal
wiring (`connect`) sends no request and is left out. -/
def ctor (E : Env Rep) (all : List Rep) (IMG : Rep) (this : QObject)
    (dimensions : Rect) (labelfileIsEmpty : Bool)
    (initSubscriptions : Controller Rep FC → Controller Rep FC × List (Call Rep FC)) :
    CtorResult Rep FC :=
  let t0 : List (Call Rep FC) := [Call.startQueue, Call.loadImage]
  if dimensions.width < 1 then
    { trace := t0 ++ [Call.exit 4], result := Except.error 4 }
  else
    let t1 : List (Call Rep FC) :=
      [Call.newMainWindow, Call.windowInitUI, Call.initFalseColor,
       Call.lmSetDimensions dimensions.height dimensions.width,
       Call.initIlluminant, Call.initGraphSegmentation, Call.dvcInit,
       Call.initDocks, Call.windowInitSignals,
       if labelfileIsEmpty then Call.lmAddLabel else Call.lmLoadLabeling]
    let c0 : Controller Rep FC := { m_roi := initialROI dimensions, subs := ⟨[], [], []⟩ }
    let p1 := spawnROI E all c0 Rect.empty
    let p2 := processSubscribeRepresentation E p1.1 this IMG
    let p3 := initSubscriptions p2.1
    { trace := t0 ++ t1 ++ p1.2 ++ p2.2 ++ [Call.dvcInitSubscriptions] ++ p3.2
               ++ [Call.windowShow],
      result := Except.ok p3.1 }

end Controller

/-- Representation a request is about, for the requests that carry one. -/
def Call.representation {Rep FC : Type} : Call Rep FC → Option Rep
  | Call.spawn type _ _ => some type
  | Call.computeBand repr _ => some repr
  | Call.setImage type _ _ => some type
  | Call.addImage type _ _ _ => some type
  | Call.subImage type _ _ => some type
  | _ => none

/-- Whether a request is `im->spawn`. -/
def Call.isSpawn {Rep FC : Type} : Call Rep FC → Bool
  | Call.spawn _ _ _ => true
  | _ => false

/-- Whether a request belongs to the payload update of a representation:
`im->spawn`, `dvc->addImage` or `dvc->setImage`. -/
def Call.isPayload {Rep FC : Type} : Call Rep FC → Bool
  | Call.spawn _ _ _ => true
  | Call.addImage _ _ _ _ => true
  | Call.setImage _ _ _ => true
  | _ => false

namespace representation

/-- Modelled from the spec: the enumeration `representation::t` of
model/representation.h, which is not among the sources, cut down to the
kinds controller.cpp names: raw image, gradient, gradient-PCA. Used for
concrete scenarios only; the theorems hold for every enumeration. -/
inductive t where
  | IMG
  | GRAD
  | GRADPCA
deriving DecidableEq, Repr

/-- Modelled from the spec: the list `representation::all()` in its fixed
dependency order, for the cut-down enumeration. -/
def all : List t := [t.IMG, t.GRAD, t.GRADPCA]

end representation

/-- Collaborator answers used in the concrete scenarios: the Image Model ROI
is 0,0,100,100, the transform reports every update as profitable with one
region to discard and one to add, image handles are 10, 11, 12 and dataset
handles 20, 21, 22. -/
def exampleEnv : Env representation.t where
  getROI := ⟨0, 0, 100, 100⟩
  rectTransform := fun _ _ => (true, [⟨0, 0, 50, 100⟩], [⟨100, 0, 50, 100⟩])
  getImage := fun r => match r with
    | representation.t.IMG => 10
    | representation.t.GRAD => 11
    | representation.t.GRADPCA => 12
  subImage := fun r _ _ => match r with
    | representation.t.IMG => some 20
    | representation.t.GRAD => some 21
    | representation.t.GRADPCA => some 22

/-- Collaborator answers as `exampleEnv`, but the transform reports the
incremental update as not profitable. -/
def unprofitableEnv : Env representation.t :=
  { exampleEnv with rectTransform := fun _ _ => (false, [], []) }

/-- Controller with ROI 50,0,100,100 and the given representation set. -/
def exampleController (repr : List (Subscription representation.t)) :
    Controller representation.t Nat :=
  { m_roi := ⟨50, 0, 100, 100⟩, subs := ⟨repr, [], []⟩ }

/-- The distribution view update the payload pass of `updateROI` issues for
one representation: `addImage` when reusing, `setImage` otherwise. -/
def Controller.payloadUpdate {Rep FC : Type} [DecidableEq Rep] (E : Env Rep) (reuse : Bool) (sets : List (Rep × sets_ptr))
    (add : List Rect) (roi : Rect) (type : Rep) : Call Rep FC :=
  if reuse then Call.addImage type (setsLookup sets type) add roi
  else Call.setImage type (E.getImage type) roi

/-- One call of a routing slot or of `updateROI`, with its arguments. -/
inductive Op (Rep FC : Type) where
  /-- Call `processSubscribeRepresentation(subscriber, repr)` -/
  | subscribeRepresentation (subscriber : QObject) (repr : Rep)
  /-- Call `processUnsubscribeRepresentation(subscriber, repr)` -/
  | unsubscribeRepresentation (subscriber : QObject) (repr : Rep)
  /-- Call `processSubscribeImageBand(subscriber, repr, bandId)` -/
  | subscribeImageBand (subscriber : QObject) (repr : Rep) (bandId : Int)
  /-- Call `processUnsubscribeImageBand(subscriber, repr, bandId)` -/
  | unsubscribeImageBand (subscriber : QObject) (repr : Rep) (bandId : Int)
  /-- Call `processSubscribeFalseColor(subscriber, coloring)` -/
  | subscribeFalseColor (subscriber : QObject) (coloring : FC)
  /-- Call `processUnsubscribeFalseColor(subscriber, coloring)` -/
  | unsubscribeFalseColor (subscriber : QObject) (coloring : FC)
  /-- Call `processRecalcFalseColor(coloringType)` -/
  | recalcFalseColor (coloringType : FC)
  /-- Call `processImageUpdate(repr)` -/
  | imageUpdate (repr : Rep)
  /-- Call `updateROI(reuse, roi, bands)` -/
  | updateROI (reuse : Bool) (roi : Rect) (bands : Int)

/-- Subscriber argument of a call, for the calls that have one. -/
def Op.subscriber {Rep FC : Type} : Op Rep FC → Option QObject
  | Op.subscribeRepresentation s _ => some s
  | Op.unsubscribeRepresentation s _ => some s
  | Op.subscribeImageBand s _ _ => some s
  | Op.unsubscribeImageBand s _ _ => some s
  | Op.subscribeFalseColor s _ => some s
  | Op.unsubscribeFalseColor s _ => some s
  | Op.recalcFalseColor _ => none
  | Op.imageUpdate _ => none
  | Op.updateROI _ _ _ => none

/-- Effect of one call on the controller, with the requests it issues; `E` gives
the collaborator answers at the time of the call. -/
def Controller.step {Rep FC : Type} [DecidableEq Rep] [DecidableEq FC]
    (all : List Rep) (basis : FC → Rep) (c : Controller Rep FC) (E : Env Rep) :
    Op Rep FC → Controller Rep FC × List (Call Rep FC)
  | Op.subscribeRepresentation s repr => Controller.processSubscribeRepresentation E c s repr
  | Op.unsubscribeRepresentation s repr => Controller.processUnsubscribeRepresentation c s repr
  | Op.subscribeImageBand s repr bandId => Controller.processSubscribeImageBand E c s repr bandId
  | Op.unsubscribeImageBand s repr bandId => Controller.processUnsubscribeImageBand c s repr bandId
  | Op.subscribeFalseColor s coloring => Controller.processSubscribeFalseColor E basis c s coloring
  | Op.unsubscribeFalseColor s coloring => Controller.processUnsubscribeFalseColor basis c s coloring
  | Op.recalcFalseColor coloringType => Controller.processRecalcFalseColor c coloringType
  | Op.imageUpdate repr => Controller.processImageUpdate basis c repr
  | Op.updateROI reuse roi bands => Controller.updateROI E all c reuse roi bands

/-- A finite sequence of calls, each with the collaborator answers of its
moment, run from left to right; the traces are concatenated. -/
def Controller.run {Rep FC : Type} [DecidableEq Rep] [DecidableEq FC]
    (all : List Rep) (basis : FC → Rep) :
    List (Env Rep × Op Rep FC) → Controller Rep FC → Controller Rep FC × List (Call Rep FC)
  | [], c => (c, [])
  | (E, op) :: rest, c =>
    let p := Controller.step all basis c E op
    let q := Controller.run all basis rest p.1
    (q.1, p.2 ++ q.2)

/-! ## Lemmas on the registry -/

section RegistryLemmas

variable {α : Type} [DecidableEq α]

theorem mem_setInsert (x y : α) (s : List α) : y ∈ setInsert x s ↔ y = x ∨ y ∈ s := by
  unfold setInsert
  by_cases h : x ∈ s
  · simp only [h, if_true]
    constructor
    · intro hy; exact Or.inr hy
    · rintro (rfl | hy)
      · exact h
      · exact hy
  · simp only [h, if_false, List.mem_append, List.mem_singleton]
    tauto

theorem setInsert_nodup (x : α) (s : List α) (hs : s.Nodup) : (setInsert x s).Nodup := by
  unfold setInsert
  by_cases h : x ∈ s
  · simpa [h] using hs
  · simp only [h, if_false]
    exact List.Nodup.append hs (List.nodup_singleton x) (by simpa using h)

theorem mem_setErase (x y : α) (s : List α) : y ∈ setErase x s ↔ y ∈ s ∧ y ≠ x := by
  simp [setErase]

theorem setErase_of_not_mem (x : α) (s : List α) (h : x ∉ s) : setErase x s = s := by
  unfold setErase
  rw [List.filter_eq_self]
  intro a ha
  have : a ≠ x := fun e => h (e ▸ ha)
  simpa using this

theorem setErase_setInsert_of_not_mem (x : α) (s : List α) (h : x ∉ s) :
    setErase x (setInsert x s) = s := by
  unfold setInsert
  simp only [h, if_false]
  unfold setErase
  rw [List.filter_append]
  have h1 : s.filter (fun y => decide (y ≠ x)) = s := setErase_of_not_mem x s h
  rw [h1]
  simp

theorem isSubscribed_iff (id : α) (subs : List (Subscription α)) :
    isSubscribed id subs = true ↔ ∃ sub ∈ subs, sub.subsid = id := by
  simp [isSubscribed]

theorem isSubscribed_setInsert (s : QObject) (id : α) (subs : List (Subscription α)) :
    isSubscribed id (setInsert ⟨s, id⟩ subs) = true := by
  rw [isSubscribed_iff]
  exact ⟨⟨s, id⟩, (mem_setInsert _ _ _).2 (Or.inl rfl), rfl⟩

theorem setErase_setInsert (x : α) (s : List α) :
    setErase x (setInsert x s) = setErase x s := by
  by_cases h : x ∈ s
  · simp [setInsert, h]
  · rw [setErase_setInsert_of_not_mem x s h, setErase_of_not_mem x s h]

theorem isSubscribed_setErase (s : QObject) (id : α) (subs : List (Subscription α)) :
    isSubscribed id (setErase ⟨s, id⟩ subs)
      = subs.any (fun sub => decide (sub.subsid = id ∧ sub.subscriber ≠ s)) := by
  rw [Bool.eq_iff_iff]
  simp only [isSubscribed, setErase, List.any_eq_true, List.mem_filter, decide_eq_true_eq]
  constructor
  · rintro ⟨sub, ⟨hm, hne⟩, hid⟩
    refine ⟨sub, hm, hid, fun hs => hne ?_⟩
    cases sub
    simp only [Subscription.mk.injEq]
    exact ⟨hs, hid⟩
  · rintro ⟨sub, hm, hid, hs⟩
    refine ⟨sub, ⟨hm, fun he => hs ?_⟩, hid⟩
    rw [he]

/-- Membership in a set built by a loop of conditional insertions. -/
theorem mem_foldl_setInsert {β : Type} (p : β → Prop) [DecidablePred p] (f : β → α)
    (l : List β) (acc : List α) (x : α) :
    x ∈ l.foldl (fun acc sub => if p sub then setInsert (f sub) acc else acc) acc
      ↔ x ∈ acc ∨ ∃ sub ∈ l, p sub ∧ f sub = x := by
  induction l generalizing acc with
  | nil => simp
  | cons a l ih =>
    rw [List.foldl_cons, ih]
    by_cases h : p a
    · simp only [h, if_true, mem_setInsert, List.mem_cons, exists_eq_or_imp, true_and]
      constructor
      · rintro ((rfl | hx) | hx)
        · exact Or.inr (Or.inl rfl)
        · exact Or.inl hx
        · exact Or.inr (Or.inr hx)
      · rintro (hx | (hx | hx))
        · exact Or.inl (Or.inr hx)
        · exact Or.inl (Or.inl hx.symm)
        · exact Or.inr hx
    · simp only [h, if_false, List.mem_cons, exists_eq_or_imp, false_and, false_or]

/-- A set built by a loop of conditional insertions has no repetition. -/
theorem nodup_foldl_setInsert {β : Type} (p : β → Prop) [DecidablePred p] (f : β → α)
    (l : List β) (acc : List α) (hacc : acc.Nodup) :
    (l.foldl (fun acc sub => if p sub then setInsert (f sub) acc else acc) acc).Nodup := by
  induction l generalizing acc with
  | nil => simpa using hacc
  | cons a l ih =>
    rw [List.foldl_cons]
    apply ih
    by_cases h : p a
    · simpa only [h, if_true] using setInsert_nodup (f a) acc hacc
    · simpa only [h, if_false] using hacc

end RegistryLemmas

namespace Controller

variable {Rep FC : Type} [DecidableEq Rep] [DecidableEq FC]

theorem haveSubscriber_eq_isSubscribed (c : Controller Rep FC) (type : Rep) :
    haveSubscriber c type = isSubscribed type c.subs.repr := rfl

theorem haveSubscriber_m_roi (c : Controller Rep FC) (roi : Rect) (type : Rep) :
    haveSubscriber { c with m_roi := roi } type = haveSubscriber c type := rfl

/-! ## Lemmas on the two loops of `updateROI` -/

theorem payloadPass_eq (E : Env Rep) (c : Controller Rep FC) (reuse : Bool)
    (sets : List (Rep × sets_ptr)) (add : List Rect) (roi : Rect) (bands : Int)
    (l : List Rep) :
    payloadPass E c reuse sets add roi bands l
      = (l.filter (haveSubscriber c)).flatMap
          (fun type => [Call.spawn type roi bands, payloadUpdate E reuse sets add roi type]) := by
  induction l with
  | nil => rfl
  | cons a l ih =>
    by_cases h : haveSubscriber c a = true
    · simp only [payloadPass, h, if_true, List.filter_cons_of_pos, List.flatMap_cons, ih]
      rfl
    · simp only [Bool.not_eq_true] at h
      simp [payloadPass, h, ih]

theorem recyclePass_trace (E : Env Rep) (c : Controller Rep FC) (sub : List Rect)
    (roi : Rect) (l : List Rep) (sets : List (Rep × sets_ptr)) :
    (recyclePass E c sub roi l sets).2
      = (l.filter (haveSubscriber c)).map (fun type => Call.subImage type sub roi) := by
  induction l generalizing sets with
  | nil => rfl
  | cons a l ih =>
    by_cases h : haveSubscriber c a = true
    · simp [recyclePass, h, ih]
    · simp only [Bool.not_eq_true] at h
      simp [recyclePass, h, ih]

theorem haveSubscriber_ctrl (E : Env Rep) (all : List Rep) (c : Controller Rep FC)
    (reuse : Bool) (roi : Rect) (bands : Int) :
    haveSubscriber (updateROIResult E all c reuse roi bands).ctrl = haveSubscriber c := by
  unfold updateROIResult
  by_cases h : Rect.empty = roi
  · simp only [h, if_true]
  · simp only [h, if_false]
    rfl

theorem updateROIResult_payload (E : Env Rep) (all : List Rep) (c : Controller Rep FC)
    (reuse : Bool) (roi : Rect) (bands : Int) :
    (updateROIResult E all c reuse roi bands).payload
      = (all.filter (haveSubscriber c)).flatMap
          (fun type => [Call.spawn type (updateROIResult E all c reuse roi bands).roi bands,
            payloadUpdate E (updateROIResult E all c reuse roi bands).reuse
              (updateROIResult E all c reuse roi bands).sets
              (updateROIResult E all c reuse roi bands).add
              (updateROIResult E all c reuse roi bands).roi type]) := by
  have h := haveSubscriber_ctrl E all c reuse roi bands
  have hp : (updateROIResult E all c reuse roi bands).payload
      = payloadPass E (updateROIResult E all c reuse roi bands).ctrl
          (updateROIResult E all c reuse roi bands).reuse
          (updateROIResult E all c reuse roi bands).sets
          (updateROIResult E all c reuse roi bands).add
          (updateROIResult E all c reuse roi bands).roi bands all := rfl
  rw [hp, payloadPass_eq, h]

theorem updateROIResult_recycle (E : Env Rep) (all : List Rep) (c : Controller Rep FC)
    (reuse : Bool) (roi : Rect) (bands : Int) :
    (updateROIResult E all c reuse roi bands).recycle
      = if (updateROIResult E all c reuse roi bands).reuse then
          (all.filter (haveSubscriber c)).map
            (fun type => Call.subImage type (updateROIResult E all c reuse roi bands).sub
              (updateROIResult E all c reuse roi bands).roi)
        else [] := by
  have h := haveSubscriber_ctrl E all c reuse roi bands
  have hp : (updateROIResult E all c reuse roi bands).recycle
      = (if (updateROIResult E all c reuse roi bands).reuse then
          recyclePass E (updateROIResult E all c reuse roi bands).ctrl
            (updateROIResult E all c reuse roi bands).sub
            (updateROIResult E all c reuse roi bands).roi all []
         else ([], [])).2 := rfl
  rw [hp]
  split
  · rw [recyclePass_trace, h]
  · rfl

theorem updateROIResult_prepare (E : Env Rep) (all : List Rep) (c : Controller Rep FC)
    (reuse : Bool) (roi : Rect) (bands : Int) :
    (updateROIResult E all c reuse roi bands).prepare
      = if reuse then [] else [Call.invalidateROI] := rfl

theorem updateROIResult_metadata (E : Env Rep) (all : List Rep) (c : Controller Rep FC)
    (reuse : Bool) (roi : Rect) (bands : Int) :
    (updateROIResult E all c reuse roi bands).metadata
      = [Call.lmUpdateROI (updateROIResult E all c reuse roi bands).roi,
         Call.illummSetRoi (updateROIResult E all c reuse roi bands).roi] := rfl

/-- The requests before the payload pass of `updateROI`. -/
theorem updateROIResult_prefix_mem (E : Env Rep) (all : List Rep) (c : Controller Rep FC)
    (reuse : Bool) (roi : Rect) (bands : Int) (x : Call Rep FC)
    (hx : x ∈ (updateROIResult E all c reuse roi bands).prepare
          ++ (updateROIResult E all c reuse roi bands).recycle
          ++ (updateROIResult E all c reuse roi bands).metadata) :
    x.isPayload = false
    ∧ (∀ type, x.representation = some type → haveSubscriber c type = true) := by
  rw [updateROIResult_prepare, updateROIResult_recycle, updateROIResult_metadata] at hx
  simp only [List.mem_append] at hx
  rcases hx with (hx | hx) | hx
  · split at hx
    · simp at hx
    · simp only [List.mem_singleton] at hx
      subst hx
      exact ⟨rfl, fun _ h => by simp [Call.representation] at h⟩
  · split at hx
    · simp only [List.mem_map, List.mem_filter] at hx
      obtain ⟨t, ⟨_, ht⟩, rfl⟩ := hx
      refine ⟨rfl, fun type h => ?_⟩
      simp only [Call.representation, Option.some.injEq] at h
      exact h ▸ ht
    · simp at hx
  · simp only [List.mem_cons, List.mem_singleton, List.not_mem_nil, or_false] at hx
    rcases hx with rfl | rfl
    · exact ⟨rfl, fun _ h => by simp [Call.representation] at h⟩
    · exact ⟨rfl, fun _ h => by simp [Call.representation] at h⟩

/-- The requests of a payload pass over `l` are about subscribed members of `l`. -/
theorem payload_flatMap_mem (E : Env Rep) (c : Controller Rep FC) (reuse : Bool)
    (sets : List (Rep × sets_ptr)) (add : List Rect) (roi : Rect) (bands : Int)
    (l : List Rep) (x : Call Rep FC)
    (hx : x ∈ (l.filter (haveSubscriber c)).flatMap
      (fun type => [Call.spawn type roi bands, payloadUpdate E reuse sets add roi type])) :
    ∃ type ∈ l, haveSubscriber c type = true ∧ x.representation = some type := by
  simp only [List.mem_flatMap, List.mem_filter, List.mem_cons, List.mem_singleton,
    List.not_mem_nil, or_false] at hx
  obtain ⟨t, ⟨ht, hs⟩, hx⟩ := hx
  refine ⟨t, ht, hs, ?_⟩
  rcases hx with rfl | rfl
  · rfl
  · unfold payloadUpdate
    split <;> rfl

theorem filter_isSpawn_payload (E : Env Rep) (reuse : Bool)
    (sets : List (Rep × sets_ptr)) (add : List Rect) (roi : Rect) (bands : Int)
    (l : List Rep) :
    (l.flatMap (fun type => [(Call.spawn type roi bands : Call Rep FC),
        payloadUpdate E reuse sets add roi type])).filter Call.isSpawn
      = l.map (fun type => Call.spawn type roi bands) := by
  induction l with
  | nil => rfl
  | cons a l ih =>
    have hu : Call.isSpawn (payloadUpdate E reuse sets add roi a : Call Rep FC) = false := by
      unfold payloadUpdate
      split <;> rfl
    have hs : Call.isSpawn (Call.spawn a roi bands : Call Rep FC) = true := rfl
    simp only [List.flatMap_cons, List.filter_append, ih, List.map_cons]
    simp [List.filter_cons, hs, hu]

/-- Every request of `updateROI` that is about a representation is about a
subscribed one. -/
theorem updateROI_representation_subscribed (E : Env Rep) (all : List Rep)
    (c : Controller Rep FC) (reuse : Bool) (roi : Rect) (bands : Int) (x : Call Rep FC)
    (hx : x ∈ (updateROI E all c reuse roi bands).2) (type : Rep)
    (hr : x.representation = some type) : haveSubscriber c type = true := by
  have htrace : (updateROI E all c reuse roi bands).2
      = ((updateROIResult E all c reuse roi bands).prepare
            ++ (updateROIResult E all c reuse roi bands).recycle
            ++ (updateROIResult E all c reuse roi bands).metadata)
        ++ (updateROIResult E all c reuse roi bands).payload := rfl
  rw [htrace, List.mem_append] at hx
  rcases hx with hx | hx
  · exact (updateROIResult_prefix_mem E all c reuse roi bands x hx).2 type hr
  · rw [updateROIResult_payload] at hx
    obtain ⟨t, _, hs, ht⟩ := payload_flatMap_mem E c _ _ _ _ _ all x hx
    rw [hr] at ht
    exact (Option.some.inj ht) ▸ hs

/-- A request that carries no representation is counted in the preparation
step and the metadata pass only. -/
theorem count_trace_of_representation_none (E : Env Rep) (all : List Rep)
    (c : Controller Rep FC) (reuse : Bool) (roi : Rect) (bands : Int) (x : Call Rep FC)
    (hx : x.representation = none) :
    List.count x (updateROI E all c reuse roi bands).2
      = List.count x (updateROIResult E all c reuse roi bands).prepare
        + List.count x (updateROIResult E all c reuse roi bands).metadata := by
  have htrace : (updateROI E all c reuse roi bands).2
      = (updateROIResult E all c reuse roi bands).prepare
            ++ (updateROIResult E all c reuse roi bands).recycle
            ++ (updateROIResult E all c reuse roi bands).metadata
            ++ (updateROIResult E all c reuse roi bands).payload := rfl
  have h1 : List.count x (updateROIResult E all c reuse roi bands).recycle = 0 := by
    rw [List.count_eq_zero, updateROIResult_recycle]
    intro hm
    split at hm
    · simp only [List.mem_map] at hm
      obtain ⟨t, _, rfl⟩ := hm
      simp [Call.representation] at hx
    · simp at hm
  have h2 : List.count x (updateROIResult E all c reuse roi bands).payload = 0 := by
    rw [List.count_eq_zero, updateROIResult_payload]
    intro hm
    obtain ⟨t, _, _, ht⟩ := payload_flatMap_mem E c _ _ _ _ _ all x hm
    rw [hx] at ht
    exact Option.noConfusion ht
  rw [htrace, List.count_append, List.count_append, List.count_append, h1, h2]
  omega

theorem updateROIResult_roi (E : Env Rep) (all : List Rep) (c : Controller Rep FC)
    (reuse : Bool) (roi : Rect) (bands : Int) :
    (updateROIResult E all c reuse roi bands).roi
      = if Rect.empty = roi then c.m_roi else roi := rfl

theorem updateROIResult_ctrl (E : Env Rep) (all : List Rep) (c : Controller Rep FC)
    (reuse : Bool) (roi : Rect) (bands : Int) :
    (updateROIResult E all c reuse roi bands).ctrl
      = if Rect.empty = roi then c else { c with m_roi := roi } := rfl

theorem updateROIResult_reuse (E : Env Rep) (all : List Rep) (c : Controller Rep FC)
    (reuse : Bool) (roi : Rect) (bands : Int) :
    (updateROIResult E all c reuse roi bands).reuse
      = if reuse then
          (E.rectTransform E.getROI (updateROIResult E all c reuse roi bands).roi).1
        else false := rfl

theorem processSubscribeRepresentation_fst (E : Env Rep) (c : Controller Rep FC)
    (s : QObject) (R : Rep) :
    (processSubscribeRepresentation E c s R).1
      = { c with subs := { c.subs with repr := setInsert ⟨s, R⟩ c.subs.repr } } := by
  unfold processSubscribeRepresentation subscribe
  cases isSubscribed R c.subs.repr <;> rfl

theorem processSubscribeRepresentation_snd (E : Env Rep) (c : Controller Rep FC)
    (s : QObject) (R : Rep) :
    (processSubscribeRepresentation E c s R).2
      = if haveSubscriber c R then []
        else [Call.spawn R c.m_roi (-1), Call.setImage R (E.getImage R) c.m_roi] := by
  unfold processSubscribeRepresentation subscribe
  rw [haveSubscriber_eq_isSubscribed]
  cases isSubscribed R c.subs.repr <;> simp

theorem processSubscribeImageBand_fst (E : Env Rep) (c : Controller Rep FC)
    (s : QObject) (R : Rep) (b : Int) :
    (processSubscribeImageBand E c s R b).1
      = { c with subs :=
          { repr := setInsert ⟨s, R⟩ c.subs.repr
            imageBand := setInsert ⟨s, ⟨R, b⟩⟩ c.subs.imageBand
            falseColor := c.subs.falseColor } } := by
  unfold processSubscribeImageBand subscribe
  simp only [processSubscribeRepresentation_fst]
  split <;> rfl

theorem processUnsubscribeImageBand_fst (c : Controller Rep FC)
    (s : QObject) (R : Rep) (b : Int) :
    (processUnsubscribeImageBand c s R b).1
      = { c with subs :=
          { repr := setErase ⟨s, R⟩ c.subs.repr
            imageBand := setErase ⟨s, ⟨R, b⟩⟩ c.subs.imageBand
            falseColor := c.subs.falseColor } } := rfl

/-! ## Lemmas on `processImageUpdate` -/

theorem mem_bandUpdates (c : Controller Rep FC) (repr : Rep) (ib : ImageBandId Rep) :
    ib ∈ bandUpdates c repr ↔ ib.repr = repr ∧ isSubscribed ib c.subs.imageBand = true := by
  unfold bandUpdates
  rw [mem_foldl_setInsert (fun sub : Subscription (ImageBandId Rep) => repr = sub.subsid.repr)
    (fun sub => sub.subsid), isSubscribed_iff]
  simp only [List.not_mem_nil, false_or]
  constructor
  · rintro ⟨sub, hm, hr, rfl⟩
    exact ⟨hr.symm, sub, hm, rfl⟩
  · rintro ⟨hr, sub, hm, rfl⟩
    exact ⟨sub, hm, hr.symm, rfl⟩

theorem nodup_bandUpdates (c : Controller Rep FC) (repr : Rep) :
    (bandUpdates c repr).Nodup :=
  nodup_foldl_setInsert _ _ _ _ List.nodup_nil

theorem mem_fcUpdates (basis : FC → Rep) (c : Controller Rep FC) (repr : Rep) (coloring : FC) :
    coloring ∈ fcUpdates basis c repr
      ↔ basis coloring = repr ∧ isSubscribed coloring c.subs.falseColor = true := by
  unfold fcUpdates
  rw [mem_foldl_setInsert (fun sub : Subscription FC => isBasedOn basis sub.subsid repr = true)
    (fun sub => sub.subsid), isSubscribed_iff]
  simp only [List.not_mem_nil, false_or, isBasedOn, decide_eq_true_eq]
  constructor
  · rintro ⟨sub, hm, hr, rfl⟩
    exact ⟨hr, sub, hm, rfl⟩
  · rintro ⟨hr, sub, hm, rfl⟩
    exact ⟨sub, hm, hr, rfl⟩

theorem nodup_fcUpdates (basis : FC → Rep) (c : Controller Rep FC) (repr : Rep) :
    (fcUpdates basis c repr).Nodup :=
  nodup_foldl_setInsert _ _ _ _ List.nodup_nil

theorem count_computeBand_map (l : List (ImageBandId Rep)) (ib : ImageBandId Rep) :
    List.count (Call.computeBand ib.repr ib.bandx : Call Rep FC)
        (l.map (fun ib => Call.computeBand ib.repr ib.bandx))
      = List.count ib l := by
  induction l with
  | nil => rfl
  | cons a l ih =>
    rw [List.map_cons, List.count_cons, List.count_cons, ih]
    congr 1
    by_cases h : a = ib
    · subst h
      simp
    · have h2 : ¬ (Call.computeBand a.repr a.bandx : Call Rep FC)
          = Call.computeBand ib.repr ib.bandx := by
        intro e
        apply h
        cases a
        cases ib
        simp only [Call.computeBand.injEq] at e
        simp only [ImageBandId.mk.injEq]
        exact e
      simp [h, h2]

theorem count_requestColoring_flatMap (l : List FC) (coloring : FC) (recalc : Bool) :
    List.count (Call.requestColoring coloring recalc : Call Rep FC)
        (l.flatMap (fun coloring => [Call.pendingFalseColorUpdate coloring,
                                     Call.requestColoring coloring false]))
      = if recalc = false then List.count coloring l else 0 := by
  induction l with
  | nil => simp
  | cons a l ih =>
    rw [List.flatMap_cons, List.count_append, ih]
    cases recalc
    · by_cases h : a = coloring
      · subst h
        simp [List.count_cons, Nat.add_comm]
      · simp [List.count_cons, h]
    · simp [List.count_cons]

/-- No ROI update requests a bulk cancellation of the task queue by itself. -/
theorem queueCancelTasks_not_mem_updateROI (E : Env Rep) (all : List Rep)
    (c : Controller Rep FC) (reuse : Bool) (roi : Rect) (bands : Int) :
    Call.queueCancelTasks ∉ (updateROI E all c reuse roi bands).2 := by
  rw [← List.count_eq_zero,
    count_trace_of_representation_none E all c reuse roi bands Call.queueCancelTasks rfl,
    updateROIResult_prepare, updateROIResult_metadata]
  cases reuse <;> simp

/-! ## Lemmas on sequences of calls -/

theorem processSubscribeFalseColor_repr (E : Env Rep) (basis : FC → Rep)
    (c : Controller Rep FC) (s : QObject) (coloring : FC) :
    (processSubscribeFalseColor E basis c s coloring).1.subs.repr
      = setInsert ⟨s, basis coloring⟩ c.subs.repr := by
  unfold processSubscribeFalseColor subscribe
  simp only [processSubscribeRepresentation_fst]
  split <;> rfl

theorem processUnsubscribeFalseColor_repr (basis : FC → Rep)
    (c : Controller Rep FC) (s : QObject) (coloring : FC) :
    (processUnsubscribeFalseColor basis c s coloring).1.subs.repr
      = setErase ⟨s, basis coloring⟩ c.subs.repr := rfl

theorem processRecalcFalseColor_fst (c : Controller Rep FC) (coloringType : FC) :
    (processRecalcFalseColor c coloringType).1 = c := by
  unfold processRecalcFalseColor
  split <;> rfl

theorem updateROI_subs (E : Env Rep) (all : List Rep) (c : Controller Rep FC)
    (reuse : Bool) (roi : Rect) (bands : Int) :
    (updateROI E all c reuse roi bands).1.subs = c.subs := by
  show (updateROIResult E all c reuse roi bands).ctrl.subs = c.subs
  rw [updateROIResult_ctrl]
  split <;> rfl

/-- One call by a subscriber other than `owner` keeps every pair `owner`
holds in the representation set. -/
theorem step_keeps_pair (all : List Rep) (basis : FC → Rep) (c : Controller Rep FC)
    (E : Env Rep) (op : Op Rep FC) (owner : QObject) (R : Rep)
    (hop : op.subscriber ≠ some owner)
    (hc : (⟨owner, R⟩ : Subscription Rep) ∈ c.subs.repr) :
    (⟨owner, R⟩ : Subscription Rep) ∈ (step all basis c E op).1.subs.repr := by
  have hne : ∀ (s : QObject) (R2 : Rep), some s ≠ some owner →
      (⟨owner, R⟩ : Subscription Rep) ≠ ⟨s, R2⟩ := by
    intro s R2 hs he
    apply hs
    simp only [Subscription.mk.injEq] at he
    rw [he.1]
  cases op with
  | subscribeRepresentation s repr =>
    simp only [step, processSubscribeRepresentation_fst]
    exact (mem_setInsert _ _ _).2 (Or.inr hc)
  | unsubscribeRepresentation s repr =>
    simp only [step, processUnsubscribeRepresentation]
    exact (mem_setErase _ _ _).2 ⟨hc, hne s repr hop⟩
  | subscribeImageBand s repr bandId =>
    simp only [step, processSubscribeImageBand_fst]
    exact (mem_setInsert _ _ _).2 (Or.inr hc)
  | unsubscribeImageBand s repr bandId =>
    simp only [step, processUnsubscribeImageBand_fst]
    exact (mem_setErase _ _ _).2 ⟨hc, hne s repr hop⟩
  | subscribeFalseColor s coloring =>
    simp only [step, processSubscribeFalseColor_repr]
    exact (mem_setInsert _ _ _).2 (Or.inr hc)
  | unsubscribeFalseColor s coloring =>
    simp only [step, processUnsubscribeFalseColor_repr]
    exact (mem_setErase _ _ _).2 ⟨hc, hne s (basis coloring) hop⟩
  | recalcFalseColor coloringType =>
    simp only [step, processRecalcFalseColor_fst]
    exact hc
  | imageUpdate repr =>
    simp only [step, processImageUpdate]
    exact hc
  | updateROI reuse roi bands =>
    simp only [step, updateROI_subs]
    exact hc

/-- A sequence of calls by subscribers other than `owner` keeps every pair
`owner` holds in the representation set. -/
theorem run_keeps_pair (all : List Rep) (basis : FC → Rep)
    (ops : List (Env Rep × Op Rep FC)) (c : Controller Rep FC) (owner : QObject) (R : Rep)
    (hops : ∀ p ∈ ops, p.2.subscriber ≠ some owner)
    (hc : (⟨owner, R⟩ : Subscription Rep) ∈ c.subs.repr) :
    (⟨owner, R⟩ : Subscription Rep) ∈ (run all basis ops c).1.subs.repr := by
  induction ops generalizing c with
  | nil => exact hc
  | cons p rest ih =>
    obtain ⟨E, op⟩ := p
    simp only [run]
    apply ih
    · intro q hq
      exact hops q (List.mem_cons_of_mem _ hq)
    · exact step_keeps_pair all basis c E op owner R
        (hops (E, op) (List.mem_cons_self _ _)) hc

theorem haveSubscriber_of_mem (c : Controller Rep FC) (s : QObject) (R : Rep)
    (h : (⟨s, R⟩ : Subscription Rep) ∈ c.subs.repr) : haveSubscriber c R = true := by
  rw [haveSubscriber_eq_isSubscribed, isSubscribed_iff]
  exact ⟨⟨s, R⟩, h, rfl⟩

/-! ## Lemmas on the recycled datasets -/

theorem setsLookup_setsAssign (sets : List (Rep × sets_ptr)) (type : Rep) (v : sets_ptr)
    (R : Rep) :
    setsLookup (setsAssign sets type v) R = if type = R then v else setsLookup sets R := by
  by_cases h : type = R
  · simp [setsLookup, setsAssign, h]
  · have hf : ∀ l : List (Rep × sets_ptr),
        (l.filter (fun e => decide (e.1 ≠ type))).find? (fun e => decide (e.1 = R))
          = l.find? (fun e => decide (e.1 = R)) := by
      intro l
      induction l with
      | nil => rfl
      | cons a l ih =>
        by_cases hat : a.1 = type
        · have hp : decide (a.1 ≠ type) = false := by simp [hat]
          have haR : decide (a.1 = R) = false := by
            rw [hat]
            simpa using h
          simp only [List.filter_cons, hp, Bool.false_eq_true, if_false, List.find?_cons, haR]
          exact ih
        · have hp : decide (a.1 ≠ type) = true := by simpa using hat
          simp only [List.filter_cons, hp, if_true, List.find?_cons]
          rw [ih]
    simp only [setsLookup, setsAssign, h, if_false]
    rw [List.find?_cons]
    simp only [h, decide_False]
    rw [hf]

/-- After the recycle pass, the entry of a subscribed representation of the
list is the handle `dvc->subImage` returned for it. -/
theorem recyclePass_lookup (E : Env Rep) (c : Controller Rep FC) (sub : List Rect)
    (roi : Rect) (l : List Rep) (sets : List (Rep × sets_ptr)) (R : Rep) :
    setsLookup (recyclePass E c sub roi l sets).1 R
      = if R ∈ l ∧ haveSubscriber c R = true then E.subImage R sub roi
        else setsLookup sets R := by
  induction l generalizing sets with
  | nil => simp [recyclePass]
  | cons a l ih =>
    by_cases ha : haveSubscriber c a = true
    · simp only [recyclePass, ha, if_true]
      rw [ih, setsLookup_setsAssign]
      by_cases hR : R ∈ l ∧ haveSubscriber c R = true
      · have h2 : R ∈ a :: l ∧ haveSubscriber c R = true :=
          ⟨List.mem_cons_of_mem _ hR.1, hR.2⟩
        rw [if_pos hR, if_pos h2]
      · by_cases haR : a = R
        · subst haR
          have h2 : a ∈ a :: l ∧ haveSubscriber c a = true := ⟨List.mem_cons_self _ _, ha⟩
          rw [if_neg hR, if_pos rfl, if_pos h2]
        · have h2 : ¬ (R ∈ a :: l ∧ haveSubscriber c R = true) := by
            rintro ⟨hm, hs⟩
            rcases List.mem_cons.1 hm with e | hm
            · exact haR e.symm
            · exact hR ⟨hm, hs⟩
          rw [if_neg hR, if_neg haR, if_neg h2]
    · simp only [Bool.not_eq_true] at ha
      simp only [recyclePass, ha, Bool.false_eq_true, if_false]
      rw [ih]
      by_cases hR : R ∈ l ∧ haveSubscriber c R = true
      · have h2 : R ∈ a :: l ∧ haveSubscriber c R = true :=
          ⟨List.mem_cons_of_mem _ hR.1, hR.2⟩
        rw [if_pos hR, if_pos h2]
      · have h2 : ¬ (R ∈ a :: l ∧ haveSubscriber c R = true) := by
          rintro ⟨hm, hs⟩
          rcases List.mem_cons.1 hm with e | hm
          · rw [e, ha] at hs
            exact Bool.false_ne_true hs
          · exact hR ⟨hm, hs⟩
        rw [if_neg hR, if_neg h2]

theorem flatMap_congr_mem {α β : Type} (l : List α) (f g : α → List β)
    (h : ∀ a ∈ l, f a = g a) : l.flatMap f = l.flatMap g := by
  induction l with
  | nil => rfl
  | cons a l ih =>
    rw [List.flatMap_cons, List.flatMap_cons, h a (List.mem_cons_self _ _),
      ih (fun b hb => h b (List.mem_cons_of_mem _ hb))]

/-- The whole trace of an ROI update in which reuse remains true. -/
theorem updateROI_trace_reuse (E : Env Rep) (all : List Rep) (c : Controller Rep FC)
    (reuse : Bool) (roi : Rect) (bands : Int)
    (hr : (updateROIResult E all c reuse roi bands).reuse = true) :
    (updateROI E all c reuse roi bands).2
      = (all.filter (haveSubscriber c)).map
          (fun type => Call.subImage type (updateROIResult E all c reuse roi bands).sub
            (updateROIResult E all c reuse roi bands).roi)
        ++ [Call.lmUpdateROI (updateROIResult E all c reuse roi bands).roi,
            Call.illummSetRoi (updateROIResult E all c reuse roi bands).roi]
        ++ (all.filter (haveSubscriber c)).flatMap
          (fun type =>
            [Call.spawn type (updateROIResult E all c reuse roi bands).roi bands,
             Call.addImage type
              (E.subImage type (updateROIResult E all c reuse roi bands).sub
                (updateROIResult E all c reuse roi bands).roi)
              (updateROIResult E all c reuse roi bands).add
              (updateROIResult E all c reuse roi bands).roi]) := by
  have hreuse : reuse = true := by
    rw [updateROIResult_reuse] at hr
    cases reuse
    · simp at hr
    · rfl
  have htrace : (updateROI E all c reuse roi bands).2
      = (updateROIResult E all c reuse roi bands).prepare
            ++ (updateROIResult E all c reuse roi bands).recycle
            ++ (updateROIResult E all c reuse roi bands).metadata
            ++ (updateROIResult E all c reuse roi bands).payload := rfl
  have hsets : (updateROIResult E all c reuse roi bands).sets
      = (recyclePass E (updateROIResult E all c reuse roi bands).ctrl
          (updateROIResult E all c reuse roi bands).sub
          (updateROIResult E all c reuse roi bands).roi all []).1 := by
    have h0 : (updateROIResult E all c reuse roi bands).sets
        = (if (updateROIResult E all c reuse roi bands).reuse then
            recyclePass E (updateROIResult E all c reuse roi bands).ctrl
              (updateROIResult E all c reuse roi bands).sub
              (updateROIResult E all c reuse roi bands).roi all []
           else ([], [])).1 := rfl
    rw [h0, hr]
    rfl
  rw [htrace, updateROIResult_prepare, updateROIResult_recycle, updateROIResult_metadata,
    updateROIResult_payload, hr, hreuse]
  simp only [if_true, List.nil_append]
  congr 1
  apply flatMap_congr_mem
  intro t ht
  have hmem := List.mem_filter.1 ht
  have hl : setsLookup (updateROIResult E all c true roi bands).sets t
      = E.subImage t (updateROIResult E all c true roi bands).sub
          (updateROIResult E all c true roi bands).roi := by
    rw [hreuse] at hsets
    rw [hsets, recyclePass_lookup, haveSubscriber_ctrl]
    simp [hmem.1, hmem.2]
  simp only [payloadUpdate, if_true, hl]

/-- The whole trace of an ROI update that proceeds without reuse. -/
theorem updateROI_trace_noreuse (E : Env Rep) (all : List Rep) (c : Controller Rep FC)
    (reuse : Bool) (roi : Rect) (bands : Int)
    (hr : (updateROIResult E all c reuse roi bands).reuse = false) :
    (updateROI E all c reuse roi bands).2
      = (if reuse then [] else [Call.invalidateROI])
        ++ [Call.lmUpdateROI (updateROIResult E all c reuse roi bands).roi,
            Call.illummSetRoi (updateROIResult E all c reuse roi bands).roi]
        ++ (all.filter (haveSubscriber c)).flatMap
          (fun type =>
            [Call.spawn type (updateROIResult E all c reuse roi bands).roi bands,
             Call.setImage type (E.getImage type)
              (updateROIResult E all c reuse roi bands).roi]) := by
  have htrace : (updateROI E all c reuse roi bands).2
      = (updateROIResult E all c reuse roi bands).prepare
            ++ (updateROIResult E all c reuse roi bands).recycle
            ++ (updateROIResult E all c reuse roi bands).metadata
            ++ (updateROIResult E all c reuse roi bands).payload := rfl
  rw [htrace, updateROIResult_prepare, updateROIResult_recycle, updateROIResult_metadata,
    updateROIResult_payload, hr]
  simp only [Bool.false_eq_true, if_false, List.append_nil, payloadUpdate]

theorem count_subImage_map (l : List Rep) (R : Rep) (sub : List Rect) (roi : Rect) :
    List.count (Call.subImage R sub roi : Call Rep FC)
        (l.map (fun type => Call.subImage type sub roi))
      = List.count R l := by
  induction l with
  | nil => rfl
  | cons a l ih =>
    rw [List.map_cons, List.count_cons, List.count_cons, ih]
    by_cases h : a = R
    · subst h
      simp
    · simp [h]

theorem count_addImage_flatMap (l : List Rep) (R : Rep) (h : Rep → sets_ptr)
    (add : List Rect) (roi : Rect) (bands : Int) :
    List.count (Call.addImage R (h R) add roi : Call Rep FC)
        (l.flatMap (fun type => [Call.spawn type roi bands, Call.addImage type (h type) add roi]))
      = List.count R l := by
  induction l with
  | nil => rfl
  | cons a l ih =>
    rw [List.flatMap_cons, List.count_append, ih]
    by_cases ha : a = R
    · subst ha
      simp [List.count_cons, Nat.add_comm]
    · simp [List.count_cons, ha]

theorem count_setImage_flatMap (l : List Rep) (R : Rep) (g : Rep → SharedMultiImgPtr)
    (roi : Rect) (bands : Int) :
    List.count (Call.setImage R (g R) roi : Call Rep FC)
        (l.flatMap (fun type => [Call.spawn type roi bands, Call.setImage type (g type) roi]))
      = List.count R l := by
  induction l with
  | nil => rfl
  | cons a l ih =>
    rw [List.flatMap_cons, List.count_append, ih]
    by_cases ha : a = R
    · subst ha
      simp [List.count_cons, Nat.add_comm]
    · simp [List.count_cons, ha]

/-- A subscribed member of a list without repetition occurs once among the
subscribed members. -/
theorem count_filter_haveSubscriber (c : Controller Rep FC) (all : List Rep)
    (hnd : all.Nodup) (R : Rep) (hR : R ∈ all) (hs : haveSubscriber c R = true) :
    List.count R (all.filter (haveSubscriber c)) = 1 := by
  rw [List.count_eq_of_nodup (hnd.filter _)]
  simp [List.mem_filter, hR, hs]

end Controller

/-! ## Subscribing to a representation -/

/-- C1: for every registry state, current ROI, subscriber `s` and
representation `R`, `processSubscribeRepresentation(s, R)` issues exactly the
two requests `spawn(R, m_roi, -1)` and then `setImage(R, image of R, m_roi)`
when `R` had no subscriber before the call, and issues no request at all when
`R` already had a subscriber; afterwards `R` has a subscriber, so a second
subscription (by anyone) issues nothing. -/
theorem C1_processSubscribeRepresentation_spawns_once {Rep FC : Type}
    [DecidableEq Rep] [DecidableEq FC] (E : Env Rep) (c : Controller Rep FC)
    (s s2 : QObject) (R : Rep) :
    (Controller.processSubscribeRepresentation E c s R).2
        = (if Controller.haveSubscriber c R then []
           else [Call.spawn R c.m_roi (-1), Call.setImage R (E.getImage R) c.m_roi])
    ∧ Controller.haveSubscriber (Controller.processSubscribeRepresentation E c s R).1 R = true
    ∧ (Controller.processSubscribeRepresentation E
        (Controller.processSubscribeRepresentation E c s R).1 s2 R).2 = [] := by
  have h1 : Controller.haveSubscriber
      (Controller.processSubscribeRepresentation E c s R).1 R = true := by
    rw [Controller.haveSubscriber_eq_isSubscribed, Controller.processSubscribeRepresentation_fst]
    exact isSubscribed_setInsert s R c.subs.repr
  have key := fun (c0 : Controller Rep FC) (s0 : QObject) =>
    Controller.processSubscribeRepresentation_snd E c0 s0 R
  refine ⟨key c s, h1, ?_⟩
  rw [key, h1]
  rfl

/-- C1, scenario: with ROI 50,0,100,100 and only IMG subscribed, view 1
subscribing to GRAD triggers `spawn(GRAD, roi, -1)` and `setImage(GRAD, 11,
roi)`; view 2 subscribing to GRAD afterwards triggers nothing. -/
theorem C1_processSubscribeRepresentation_spawns_once_witness :
    (Controller.processSubscribeRepresentation exampleEnv
        (exampleController [⟨0, representation.t.IMG⟩]) 1 representation.t.GRAD).2
      = [Call.spawn representation.t.GRAD ⟨50, 0, 100, 100⟩ (-1),
         Call.setImage representation.t.GRAD 11 ⟨50, 0, 100, 100⟩]
    ∧ (Controller.processSubscribeRepresentation exampleEnv
        (Controller.processSubscribeRepresentation exampleEnv
          (exampleController [⟨0, representation.t.IMG⟩]) 1 representation.t.GRAD).1
        2 representation.t.GRAD).2 = [] :=
  ⟨(C1_processSubscribeRepresentation_spawns_once exampleEnv
      (exampleController [⟨0, representation.t.IMG⟩]) 1 2 representation.t.GRAD).1,
   (C1_processSubscribeRepresentation_spawns_once exampleEnv
      (exampleController [⟨0, representation.t.IMG⟩]) 1 2 representation.t.GRAD).2.2⟩

/-! ## The ROI update -/

/-- C2: within one `updateROI` call, for every registry state, the `spawn`
requests are exactly `representation::all()` filtered to the subscribed
representations, in that order; the requests before the payload pass hold no
`spawn`, `addImage` or `setImage`; the payload pass is, for each subscribed
representation in that order, its `spawn` directly followed by its own
distribution view update. Hence when `all()` has no repetition and lists
`base` before `derived` and both are subscribed, the trace has the shape
`P, spawn base, update base, Q, spawn derived, update derived, S` with no
further payload request for `base` or `derived` in `P`, `Q`, `S`. -/
theorem C2_updateROI_payload_in_dependency_order {Rep FC : Type}
    [DecidableEq Rep] [DecidableEq FC] (E : Env Rep) (all : List Rep)
    (c : Controller Rep FC) (reuse : Bool) (roi : Rect) (bands : Int) :
    ((Controller.updateROI E all c reuse roi bands).2.filter Call.isSpawn
      = (all.filter (Controller.haveSubscriber c)).map
          (fun type => Call.spawn type (Controller.updateROIResult E all c reuse roi bands).roi
            bands))
    ∧ (∀ x ∈ (Controller.updateROIResult E all c reuse roi bands).prepare
            ++ (Controller.updateROIResult E all c reuse roi bands).recycle
            ++ (Controller.updateROIResult E all c reuse roi bands).metadata,
          x.isPayload = false)
    ∧ ((Controller.updateROI E all c reuse roi bands).2
      = ((Controller.updateROIResult E all c reuse roi bands).prepare
            ++ (Controller.updateROIResult E all c reuse roi bands).recycle
            ++ (Controller.updateROIResult E all c reuse roi bands).metadata)
        ++ (all.filter (Controller.haveSubscriber c)).flatMap
          (fun type =>
            [Call.spawn type (Controller.updateROIResult E all c reuse roi bands).roi bands,
             Controller.payloadUpdate E
              (Controller.updateROIResult E all c reuse roi bands).reuse
              (Controller.updateROIResult E all c reuse roi bands).sets
              (Controller.updateROIResult E all c reuse roi bands).add
              (Controller.updateROIResult E all c reuse roi bands).roi type]))
    ∧ (∀ (base derived : Rep) (l1 l2 : List Rep), all.Nodup → all = l1 ++ base :: l2 →
        derived ∈ l2 → Controller.haveSubscriber c base = true →
        Controller.haveSubscriber c derived = true →
        ∃ P Q S : List (Call Rep FC),
          (Controller.updateROI E all c reuse roi bands).2
            = P ++ [Call.spawn base (Controller.updateROIResult E all c reuse roi bands).roi bands,
                Controller.payloadUpdate E
                  (Controller.updateROIResult E all c reuse roi bands).reuse
                  (Controller.updateROIResult E all c reuse roi bands).sets
                  (Controller.updateROIResult E all c reuse roi bands).add
                  (Controller.updateROIResult E all c reuse roi bands).roi base]
              ++ Q ++ [Call.spawn derived
                  (Controller.updateROIResult E all c reuse roi bands).roi bands,
                Controller.payloadUpdate E
                  (Controller.updateROIResult E all c reuse roi bands).reuse
                  (Controller.updateROIResult E all c reuse roi bands).sets
                  (Controller.updateROIResult E all c reuse roi bands).add
                  (Controller.updateROIResult E all c reuse roi bands).roi derived]
              ++ S
          ∧ ∀ x ∈ P ++ Q ++ S, x.isPayload = true →
              x.representation ≠ some base ∧ x.representation ≠ some derived) := by
  have htrace : (Controller.updateROI E all c reuse roi bands).2
      = ((Controller.updateROIResult E all c reuse roi bands).prepare
            ++ (Controller.updateROIResult E all c reuse roi bands).recycle
            ++ (Controller.updateROIResult E all c reuse roi bands).metadata)
        ++ (Controller.updateROIResult E all c reuse roi bands).payload := rfl
  have hpre := Controller.updateROIResult_prefix_mem E all c reuse roi bands
  refine ⟨?_, fun x hx => (hpre x hx).1, ?_, ?_⟩
  · rw [htrace, List.filter_append, Controller.updateROIResult_payload,
      Controller.filter_isSpawn_payload]
    have : ((Controller.updateROIResult E all c reuse roi bands).prepare
            ++ (Controller.updateROIResult E all c reuse roi bands).recycle
            ++ (Controller.updateROIResult E all c reuse roi bands).metadata).filter
            Call.isSpawn = [] := by
      rw [List.filter_eq_nil_iff]
      intro x hx hsp
      have h1 := (hpre x hx).1
      cases x <;> simp [Call.isSpawn, Call.isPayload] at hsp h1
    rw [this, List.nil_append]
  · rw [htrace, Controller.updateROIResult_payload]
  · intro base derived l1 l2 hnd hall hd hb hdv
    obtain ⟨m1, m2, rfl⟩ := List.append_of_mem hd
    subst hall
    have hfil : (l1 ++ base :: (m1 ++ derived :: m2)).filter (Controller.haveSubscriber c)
        = l1.filter (Controller.haveSubscriber c)
          ++ base :: (m1.filter (Controller.haveSubscriber c)
          ++ derived :: m2.filter (Controller.haveSubscriber c)) := by
      simp [List.filter_append, List.filter_cons, hb, hdv]
    rw [htrace, Controller.updateROIResult_payload, hfil]
    generalize hf : (fun type =>
      [Call.spawn type
          (Controller.updateROIResult E (l1 ++ base :: (m1 ++ derived :: m2)) c reuse roi
            bands).roi bands,
        Controller.payloadUpdate E
          (Controller.updateROIResult E (l1 ++ base :: (m1 ++ derived :: m2)) c reuse roi
            bands).reuse
          (Controller.updateROIResult E (l1 ++ base :: (m1 ++ derived :: m2)) c reuse roi
            bands).sets
          (Controller.updateROIResult E (l1 ++ base :: (m1 ++ derived :: m2)) c reuse roi
            bands).add
          (Controller.updateROIResult E (l1 ++ base :: (m1 ++ derived :: m2)) c reuse roi
            bands).roi type]) = f
    refine ⟨((Controller.updateROIResult E (l1 ++ base :: (m1 ++ derived :: m2)) c reuse roi
                bands).prepare
            ++ (Controller.updateROIResult E (l1 ++ base :: (m1 ++ derived :: m2)) c reuse roi
                bands).recycle
            ++ (Controller.updateROIResult E (l1 ++ base :: (m1 ++ derived :: m2)) c reuse roi
                bands).metadata)
          ++ (l1.filter (Controller.haveSubscriber c)).flatMap f,
        (m1.filter (Controller.haveSubscriber c)).flatMap f,
        (m2.filter (Controller.haveSubscriber c)).flatMap f, ?_, ?_⟩
    · subst hf
      simp only [List.flatMap_append, List.flatMap_cons, List.append_assoc, List.cons_append,
        List.nil_append]
    subst hf
    · have hn : ∀ t, t ∈ l1 ∨ t ∈ m1 ∨ t ∈ m2 → t ≠ base ∧ t ≠ derived := by
        have h1 : base ∉ l1 := fun h =>
          (List.disjoint_of_nodup_append hnd) h (List.mem_cons_self _ _)
        have h2 : derived ∉ l1 := fun h =>
          (List.disjoint_of_nodup_append hnd) h
            (List.mem_cons_of_mem _ (List.mem_append_right _ (List.mem_cons_self _ _)))
        have hnd2 : (base :: (m1 ++ derived :: m2)).Nodup := (List.nodup_append.1 hnd).2.1
        have h3 : base ∉ m1 ++ derived :: m2 := (List.nodup_cons.1 hnd2).1
        have hnd3 : (m1 ++ derived :: m2).Nodup := (List.nodup_cons.1 hnd2).2
        have h4 : derived ∉ m1 := fun h =>
          (List.disjoint_of_nodup_append hnd3) h (List.mem_cons_self _ _)
        have h5 : derived ∉ m2 := (List.nodup_cons.1 (List.nodup_append.1 hnd3).2.1).1
        intro t ht
        constructor
        · rintro rfl
          rcases ht with ht | ht | ht
          · exact h1 ht
          · exact h3 (List.mem_append_left _ ht)
          · exact h3 (List.mem_append_right _ (List.mem_cons_of_mem _ ht))
        · rintro rfl
          rcases ht with ht | ht | ht
          · exact h2 ht
          · exact h4 ht
          · exact h5 ht
      intro x hx hp
      simp only [List.mem_append] at hx
      have hcase : ∃ t, (t ∈ l1 ∨ t ∈ m1 ∨ t ∈ m2) ∧ x.representation = some t := by
        rcases hx with ((hx | hx) | hx) | hx
        · have := (hpre x (by simpa only [List.mem_append] using hx)).1
          rw [this] at hp
          exact absurd hp (by decide)
        · obtain ⟨t, ht, _, hr⟩ := Controller.payload_flatMap_mem E c _ _ _ _ _ l1 x hx
          exact ⟨t, Or.inl ht, hr⟩
        · obtain ⟨t, ht, _, hr⟩ := Controller.payload_flatMap_mem E c _ _ _ _ _ m1 x hx
          exact ⟨t, Or.inr (Or.inl ht), hr⟩
        · obtain ⟨t, ht, _, hr⟩ := Controller.payload_flatMap_mem E c _ _ _ _ _ m2 x hx
          exact ⟨t, Or.inr (Or.inr ht), hr⟩
      obtain ⟨t, ht, hr⟩ := hcase
      rw [hr]
      exact ⟨fun h => (hn t ht).1 (Option.some.inj h), fun h => (hn t ht).2 (Option.some.inj h)⟩

/-- C2, scenario: IMG, GRAD and GRADPCA are subscribed and the ROI moves to
50,0,100,100 with reuse; GRAD is listed before GRADPCA, and the trace is the
three `subImage` requests, the two metadata requests and then IMG, GRAD,
GRADPCA each spawned and directly updated, GRADPCA after GRAD. -/
theorem C2_updateROI_payload_in_dependency_order_witness :
    (Controller.updateROI exampleEnv representation.all
        (exampleController [⟨0, representation.t.IMG⟩, ⟨1, representation.t.GRAD⟩,
          ⟨1, representation.t.GRADPCA⟩]) true ⟨50, 0, 100, 100⟩ (-1)).2
      = [Call.subImage representation.t.IMG [⟨0, 0, 50, 100⟩] ⟨50, 0, 100, 100⟩,
         Call.subImage representation.t.GRAD [⟨0, 0, 50, 100⟩] ⟨50, 0, 100, 100⟩,
         Call.subImage representation.t.GRADPCA [⟨0, 0, 50, 100⟩] ⟨50, 0, 100, 100⟩,
         Call.lmUpdateROI ⟨50, 0, 100, 100⟩,
         Call.illummSetRoi ⟨50, 0, 100, 100⟩,
         Call.spawn representation.t.IMG ⟨50, 0, 100, 100⟩ (-1),
         Call.addImage representation.t.IMG (some 20) [⟨100, 0, 50, 100⟩] ⟨50, 0, 100, 100⟩,
         Call.spawn representation.t.GRAD ⟨50, 0, 100, 100⟩ (-1),
         Call.addImage representation.t.GRAD (some 21) [⟨100, 0, 50, 100⟩] ⟨50, 0, 100, 100⟩,
         Call.spawn representation.t.GRADPCA ⟨50, 0, 100, 100⟩ (-1),
         Call.addImage representation.t.GRADPCA (some 22) [⟨100, 0, 50, 100⟩]
           ⟨50, 0, 100, 100⟩]
    ∧ ∃ P Q S : List (Call representation.t Nat),
        (Controller.updateROI exampleEnv representation.all
          (exampleController [⟨0, representation.t.IMG⟩, ⟨1, representation.t.GRAD⟩,
            ⟨1, representation.t.GRADPCA⟩]) true ⟨50, 0, 100, 100⟩ (-1)).2
          = P ++ [Call.spawn representation.t.GRAD ⟨50, 0, 100, 100⟩ (-1),
                Call.addImage representation.t.GRAD (some 21) [⟨100, 0, 50, 100⟩]
                  ⟨50, 0, 100, 100⟩]
              ++ Q ++ [Call.spawn representation.t.GRADPCA ⟨50, 0, 100, 100⟩ (-1),
                Call.addImage representation.t.GRADPCA (some 22) [⟨100, 0, 50, 100⟩]
                  ⟨50, 0, 100, 100⟩]
              ++ S
        ∧ ∀ x ∈ P ++ Q ++ S, x.isPayload = true →
            x.representation ≠ some representation.t.GRAD
            ∧ x.representation ≠ some representation.t.GRADPCA :=
  ⟨rfl,
   (C2_updateROI_payload_in_dependency_order exampleEnv representation.all
      (exampleController [⟨0, representation.t.IMG⟩, ⟨1, representation.t.GRAD⟩,
        ⟨1, representation.t.GRADPCA⟩]) true ⟨50, 0, 100, 100⟩ (-1)).2.2.2
      representation.t.GRAD representation.t.GRADPCA [representation.t.IMG]
      [representation.t.GRADPCA] (by decide) rfl (by decide) rfl rfl⟩

/-- C3: for every call `updateROI(reuse, roi, bands)` and every representation
`R` without a subscriber at the time of the call, the call issues no `spawn`,
no `subImage`, no `addImage` and no `setImage` for `R`, whatever their other
arguments and whatever `reuse`, `roi` and `bands` are. -/
theorem C3_updateROI_skips_unsubscribed {Rep FC : Type}
    [DecidableEq Rep] [DecidableEq FC] (E : Env Rep) (all : List Rep)
    (c : Controller Rep FC) (reuse : Bool) (roi : Rect) (bands : Int) (R : Rep)
    (hR : Controller.haveSubscriber c R = false) :
    (∀ r b, Call.spawn R r b ∉ (Controller.updateROI E all c reuse roi bands).2)
    ∧ (∀ sub r, Call.subImage R sub r ∉ (Controller.updateROI E all c reuse roi bands).2)
    ∧ (∀ h add r, Call.addImage R h add r ∉ (Controller.updateROI E all c reuse roi bands).2)
    ∧ (∀ img r, Call.setImage R img r ∉ (Controller.updateROI E all c reuse roi bands).2) := by
  have key := Controller.updateROI_representation_subscribed E all c reuse roi bands
  refine ⟨fun r b hx => ?_, fun sub r hx => ?_, fun h add r hx => ?_, fun img r hx => ?_⟩
  · have := key _ hx R rfl
    rw [hR] at this
    exact Bool.false_ne_true this
  · have := key _ hx R rfl
    rw [hR] at this
    exact Bool.false_ne_true this
  · have := key _ hx R rfl
    rw [hR] at this
    exact Bool.false_ne_true this
  · have := key _ hx R rfl
    rw [hR] at this
    exact Bool.false_ne_true this

/-- C3, scenario: only IMG is subscribed; an ROI update with reuse issues no
request for GRADPCA. -/
theorem C3_updateROI_skips_unsubscribed_witness :
    Controller.haveSubscriber (exampleController [⟨0, representation.t.IMG⟩])
        representation.t.GRADPCA = false
    ∧ (∀ r b, Call.spawn representation.t.GRADPCA r b ∉
        (Controller.updateROI exampleEnv representation.all
          (exampleController [⟨0, representation.t.IMG⟩]) true ⟨50, 0, 100, 100⟩ (-1)).2)
    ∧ (∀ sub r, Call.subImage representation.t.GRADPCA sub r ∉
        (Controller.updateROI exampleEnv representation.all
          (exampleController [⟨0, representation.t.IMG⟩]) true ⟨50, 0, 100, 100⟩ (-1)).2)
    ∧ (∀ h add r, Call.addImage representation.t.GRADPCA h add r ∉
        (Controller.updateROI exampleEnv representation.all
          (exampleController [⟨0, representation.t.IMG⟩]) true ⟨50, 0, 100, 100⟩ (-1)).2)
    ∧ (∀ img r, Call.setImage representation.t.GRADPCA img r ∉
        (Controller.updateROI exampleEnv representation.all
          (exampleController [⟨0, representation.t.IMG⟩]) true ⟨50, 0, 100, 100⟩ (-1)).2) :=
  ⟨rfl, C3_updateROI_skips_unsubscribed exampleEnv representation.all
    (exampleController [⟨0, representation.t.IMG⟩]) true ⟨50, 0, 100, 100⟩ (-1)
    representation.t.GRADPCA rfl⟩

/-- C4, counterexample: the caller passes reuse=true, the transform reports
the update as not profitable, so the update proceeds with reuse=false (every
subscribed representation gets `setImage`), yet `im->invalidateROI()` is not
among the requests. -/
theorem C4_fallback_without_invalidateROI :
    (Controller.updateROIResult unprofitableEnv representation.all
        (exampleController [⟨0, representation.t.IMG⟩]) true ⟨50, 0, 100, 100⟩ (-1)).reuse
      = false
    ∧ (Controller.updateROI unprofitableEnv representation.all
        (exampleController [⟨0, representation.t.IMG⟩]) true ⟨50, 0, 100, 100⟩ (-1)).2
      = [Call.lmUpdateROI ⟨50, 0, 100, 100⟩, Call.illummSetRoi ⟨50, 0, 100, 100⟩,
         Call.spawn representation.t.IMG ⟨50, 0, 100, 100⟩ (-1),
         Call.setImage representation.t.IMG 10 ⟨50, 0, 100, 100⟩]
    ∧ Call.invalidateROI ∉ (Controller.updateROI unprofitableEnv representation.all
        (exampleController [⟨0, representation.t.IMG⟩]) true ⟨50, 0, 100, 100⟩ (-1)).2 :=
  ⟨rfl, rfl, by decide⟩

/-- C4, amended: `im->invalidateROI()` is requested exactly once when the
caller passed reuse=false and not at all when the caller passed reuse=true,
whether or not the transform reported the update as profitable; the update
proceeds with reuse=true exactly when the caller passed reuse=true and the
transform (applied to the Image Model ROI and the resolved ROI) reported
profitable. -/
theorem C4_invalidateROI_iff_caller_reuse_false {Rep FC : Type}
    [DecidableEq Rep] [DecidableEq FC] (E : Env Rep) (all : List Rep)
    (c : Controller Rep FC) (reuse : Bool) (roi : Rect) (bands : Int) :
    List.count Call.invalidateROI (Controller.updateROI E all c reuse roi bands).2
      = (if reuse then 0 else 1)
    ∧ (Controller.updateROIResult E all c reuse roi bands).reuse
      = (reuse && (E.rectTransform E.getROI
          (Controller.updateROIResult E all c reuse roi bands).roi).1) := by
  constructor
  · rw [Controller.count_trace_of_representation_none E all c reuse roi bands
        Call.invalidateROI rfl,
      Controller.updateROIResult_prepare, Controller.updateROIResult_metadata]
    cases reuse <;> simp
  · rw [Controller.updateROIResult_reuse]
    cases reuse <;> simp

/-- C6: for every call `updateROI(reuse, cand, bands)` with stored ROI `m`: if
`cand` is the default-constructed rectangle, the stored ROI stays `m` and the
resolved ROI is `m`; otherwise both are `cand`. The registry is untouched, and
`lm->updateROI` and `illumm->setRoi` are each requested exactly once, with the
resolved ROI and with no other rectangle, regardless of `reuse`, `bands` and
the registry. -/
theorem C6_updateROI_resolves_roi_and_updates_metadata {Rep FC : Type}
    [DecidableEq Rep] [DecidableEq FC] (E : Env Rep) (all : List Rep)
    (c : Controller Rep FC) (reuse : Bool) (cand : Rect) (bands : Int) :
    (Controller.updateROI E all c reuse cand bands).1.m_roi
        = (if cand = Rect.empty then c.m_roi else cand)
    ∧ (Controller.updateROIResult E all c reuse cand bands).roi
        = (if cand = Rect.empty then c.m_roi else cand)
    ∧ (Controller.updateROI E all c reuse cand bands).1.subs = c.subs
    ∧ (∀ r, List.count (Call.lmUpdateROI r) (Controller.updateROI E all c reuse cand bands).2
        = if r = (if cand = Rect.empty then c.m_roi else cand) then 1 else 0)
    ∧ (∀ r, List.count (Call.illummSetRoi r) (Controller.updateROI E all c reuse cand bands).2
        = if r = (if cand = Rect.empty then c.m_roi else cand) then 1 else 0) := by
  have hroi : (Controller.updateROIResult E all c reuse cand bands).roi
      = (if cand = Rect.empty then c.m_roi else cand) := by
    rw [Controller.updateROIResult_roi]
    by_cases h : cand = Rect.empty
    · simp [h]
    · have h' : ¬ Rect.empty = cand := fun e => h e.symm
      simp [h, h']
  have hctrl : (Controller.updateROI E all c reuse cand bands).1
      = (Controller.updateROIResult E all c reuse cand bands).ctrl := rfl
  refine ⟨?_, hroi, ?_, fun r => ?_, fun r => ?_⟩
  · rw [hctrl, Controller.updateROIResult_ctrl]
    by_cases h : cand = Rect.empty
    · simp [h]
    · have h' : ¬ Rect.empty = cand := fun e => h e.symm
      simp [h, h']
  · rw [hctrl, Controller.updateROIResult_ctrl]
    split <;> rfl
  · rw [Controller.count_trace_of_representation_none E all c reuse cand bands
        (Call.lmUpdateROI r) rfl,
      Controller.updateROIResult_prepare, Controller.updateROIResult_metadata, hroi]
    by_cases h : r = (if cand = Rect.empty then c.m_roi else cand)
    · cases reuse <;> simp [h, List.count_cons]
    · have h' : ¬ (if cand = Rect.empty then c.m_roi else cand) = r := fun e => h e.symm
      cases reuse <;> simp [h, h', List.count_cons]
  · rw [Controller.count_trace_of_representation_none E all c reuse cand bands
        (Call.illummSetRoi r) rfl,
      Controller.updateROIResult_prepare, Controller.updateROIResult_metadata, hroi]
    by_cases h : r = (if cand = Rect.empty then c.m_roi else cand)
    · cases reuse <;> simp [h, List.count_cons]
    · have h' : ¬ (if cand = Rect.empty then c.m_roi else cand) = r := fun e => h e.symm
      cases reuse <;> simp [h, h', List.count_cons]

/-! ## The constructor -/

/-- C7, counterexample: view 1 holds a direct subscription to GRAD and is its
only subscriber. After `processSubscribeImageBand(1, GRAD, 3)` followed by
`processUnsubscribeImageBand(1, GRAD, 3)` the cascade has erased the pair
(1, GRAD): GRAD was live before the two calls and is not live after them. -/
theorem C7_cascade_drops_direct_subscription :
    Controller.haveSubscriber (exampleController [⟨1, representation.t.GRAD⟩])
        representation.t.GRAD = true
    ∧ Controller.haveSubscriber
        (Controller.processUnsubscribeImageBand
          (Controller.processSubscribeImageBand exampleEnv
            (exampleController [⟨1, representation.t.GRAD⟩]) 1 representation.t.GRAD 3).1
          1 representation.t.GRAD 3).1
        representation.t.GRAD = false :=
  ⟨rfl, rfl⟩

/-- C7, amended: after `processSubscribeImageBand(s, R, b)` followed by
`processUnsubscribeImageBand(s, R, b)` the representation set is the old one
without the pair (s, R) and the band set is the old one without the pair
(s, (R, b)); the false coloring set and the ROI are unchanged. So `R` is live
afterwards iff a subscriber other than `s` holds it, and likewise the band
topic. The liveness of `R` returns to its value before the two calls when `s`
held no pair (s, R) before them, and the liveness of (R, b) returns when `s`
held no pair (s, (R, b)) before them; in each of these cases the set itself is
restored. -/
theorem C7_subscribe_unsubscribe_band_liveness {Rep FC : Type}
    [DecidableEq Rep] [DecidableEq FC] (E : Env Rep) (c : Controller Rep FC)
    (s : QObject) (R : Rep) (b : Int) :
    (Controller.processUnsubscribeImageBand
        (Controller.processSubscribeImageBand E c s R b).1 s R b).1
      = { c with subs :=
          { repr := setErase ⟨s, R⟩ c.subs.repr
            imageBand := setErase ⟨s, ⟨R, b⟩⟩ c.subs.imageBand
            falseColor := c.subs.falseColor } }
    ∧ Controller.haveSubscriber
        (Controller.processUnsubscribeImageBand
          (Controller.processSubscribeImageBand E c s R b).1 s R b).1 R
      = c.subs.repr.any (fun sub => decide (sub.subsid = R ∧ sub.subscriber ≠ s))
    ∧ isSubscribed (ImageBandId.mk R b)
        (Controller.processUnsubscribeImageBand
          (Controller.processSubscribeImageBand E c s R b).1 s R b).1.subs.imageBand
      = c.subs.imageBand.any
          (fun sub => decide (sub.subsid = ImageBandId.mk R b ∧ sub.subscriber ≠ s))
    ∧ ((⟨s, R⟩ : Subscription Rep) ∉ c.subs.repr →
        (Controller.processUnsubscribeImageBand
          (Controller.processSubscribeImageBand E c s R b).1 s R b).1.subs.repr = c.subs.repr
        ∧ Controller.haveSubscriber
            (Controller.processUnsubscribeImageBand
              (Controller.processSubscribeImageBand E c s R b).1 s R b).1 R
          = Controller.haveSubscriber c R)
    ∧ ((⟨s, ⟨R, b⟩⟩ : Subscription (ImageBandId Rep)) ∉ c.subs.imageBand →
        (Controller.processUnsubscribeImageBand
          (Controller.processSubscribeImageBand E c s R b).1 s R b).1.subs.imageBand
          = c.subs.imageBand
        ∧ isSubscribed (ImageBandId.mk R b)
            (Controller.processUnsubscribeImageBand
              (Controller.processSubscribeImageBand E c s R b).1 s R b).1.subs.imageBand
          = isSubscribed (ImageBandId.mk R b) c.subs.imageBand) := by
  have hst : (Controller.processUnsubscribeImageBand
        (Controller.processSubscribeImageBand E c s R b).1 s R b).1
      = { c with subs :=
          { repr := setErase ⟨s, R⟩ c.subs.repr
            imageBand := setErase ⟨s, ⟨R, b⟩⟩ c.subs.imageBand
            falseColor := c.subs.falseColor } } := by
    rw [Controller.processUnsubscribeImageBand_fst, Controller.processSubscribeImageBand_fst]
    simp only [setErase_setInsert]
  refine ⟨hst, ?_, ?_, fun h => ?_, fun h => ?_⟩
  · rw [hst, Controller.haveSubscriber_eq_isSubscribed]
    exact isSubscribed_setErase s R c.subs.repr
  · rw [hst]
    exact isSubscribed_setErase s (ImageBandId.mk R b) c.subs.imageBand
  · have hr : (Controller.processUnsubscribeImageBand
          (Controller.processSubscribeImageBand E c s R b).1 s R b).1.subs.repr
        = c.subs.repr := by
      rw [hst]
      exact setErase_of_not_mem _ _ h
    exact ⟨hr, by rw [Controller.haveSubscriber_eq_isSubscribed, hr]; rfl⟩
  · have hr : (Controller.processUnsubscribeImageBand
          (Controller.processSubscribeImageBand E c s R b).1 s R b).1.subs.imageBand
        = c.subs.imageBand := by
      rw [hst]
      exact setErase_of_not_mem _ _ h
    exact ⟨hr, by rw [hr]⟩

/-- C7, scenario: view 2 holds GRAD directly; view 1 subscribes to band 3 of
GRAD and unsubscribes again. View 1 held neither pair before, so both sets are
restored and GRAD is still live. -/
theorem C7_subscribe_unsubscribe_band_liveness_witness :
    (⟨1, representation.t.GRAD⟩ : Subscription representation.t)
        ∉ (exampleController [⟨2, representation.t.GRAD⟩]).subs.repr
    ∧ (Controller.processUnsubscribeImageBand
        (Controller.processSubscribeImageBand exampleEnv
          (exampleController [⟨2, representation.t.GRAD⟩]) 1 representation.t.GRAD 3).1
        1 representation.t.GRAD 3).1.subs.repr = [⟨2, representation.t.GRAD⟩]
    ∧ Controller.haveSubscriber
        (Controller.processUnsubscribeImageBand
          (Controller.processSubscribeImageBand exampleEnv
            (exampleController [⟨2, representation.t.GRAD⟩]) 1 representation.t.GRAD 3).1
          1 representation.t.GRAD 3).1 representation.t.GRAD
      = Controller.haveSubscriber (exampleController [⟨2, representation.t.GRAD⟩])
          representation.t.GRAD
    ∧ isSubscribed (ImageBandId.mk representation.t.GRAD 3)
        (Controller.processUnsubscribeImageBand
          (Controller.processSubscribeImageBand exampleEnv
            (exampleController [⟨2, representation.t.GRAD⟩]) 1 representation.t.GRAD 3).1
          1 representation.t.GRAD 3).1.subs.imageBand
      = isSubscribed (ImageBandId.mk representation.t.GRAD 3)
          (exampleController [⟨2, representation.t.GRAD⟩]).subs.imageBand :=
  ⟨by decide,
   ((C7_subscribe_unsubscribe_band_liveness exampleEnv
      (exampleController [⟨2, representation.t.GRAD⟩]) 1 representation.t.GRAD 3).2.2.2.1
      (by decide)).1,
   ((C7_subscribe_unsubscribe_band_liveness exampleEnv
      (exampleController [⟨2, representation.t.GRAD⟩]) 1 representation.t.GRAD 3).2.2.2.1
      (by decide)).2,
   ((C7_subscribe_unsubscribe_band_liveness exampleEnv
      (exampleController [⟨2, representation.t.GRAD⟩]) 1 representation.t.GRAD 3).2.2.2.2
      (by decide)).2⟩

/-! ## Unsubscribing without a subscription -/

/-- C8, counterexample: the registry is empty, so subscriber 7 holds no pair;
`processUnsubscribeFalseColor(7, 0)` nevertheless sends
`fm->cancelComputation(0)`, because coloring 0 has no subscriber. -/
theorem C8_unsubscribeFalseColor_requests_cancel :
    (Controller.processUnsubscribeFalseColor (fun _ : Nat => representation.t.IMG)
        (exampleController []) 7 0).2 = [Call.cancelComputation 0] :=
  rfl

/-- C8, amended: for every registry state and every subscriber `s` that holds
no pair in any of the three sets, each unsubscribe operation leaves the whole
controller state unchanged; `processUnsubscribeRepresentation` and
`processUnsubscribeImageBand` send no request; `processUnsubscribeFalseColor`
sends no request when the coloring still has a subscriber, and exactly one
`cancelComputation(coloring)` when the coloring has no subscriber. -/
theorem C8_unsubscribe_never_subscribed {Rep FC : Type}
    [DecidableEq Rep] [DecidableEq FC] (basis : FC → Rep) (c : Controller Rep FC)
    (s : QObject) (R : Rep) (b : Int) (coloring : FC)
    (hrepr : ∀ sub ∈ c.subs.repr, sub.subscriber ≠ s)
    (hband : ∀ sub ∈ c.subs.imageBand, sub.subscriber ≠ s)
    (hfc : ∀ sub ∈ c.subs.falseColor, sub.subscriber ≠ s) :
    Controller.processUnsubscribeRepresentation c s R = (c, [])
    ∧ Controller.processUnsubscribeImageBand c s R b = (c, [])
    ∧ Controller.processUnsubscribeFalseColor basis c s coloring
        = (c, if isSubscribed coloring c.subs.falseColor then []
              else [Call.cancelComputation coloring]) := by
  have h1 : ∀ R0 : Rep, setErase ⟨s, R0⟩ c.subs.repr = c.subs.repr := fun R0 =>
    setErase_of_not_mem _ _ (fun hm => hrepr _ hm rfl)
  have h2 : setErase ⟨s, ⟨R, b⟩⟩ c.subs.imageBand = c.subs.imageBand :=
    setErase_of_not_mem _ _ (fun hm => hband _ hm rfl)
  have h3 : setErase ⟨s, coloring⟩ c.subs.falseColor = c.subs.falseColor :=
    setErase_of_not_mem _ _ (fun hm => hfc _ hm rfl)
  refine ⟨?_, ?_, ?_⟩
  · simp only [Controller.processUnsubscribeRepresentation, h1]
  · simp only [Controller.processUnsubscribeImageBand,
      Controller.processUnsubscribeRepresentation, h1, h2]
  · simp only [Controller.processUnsubscribeFalseColor,
      Controller.processUnsubscribeRepresentation, h1, h3]
    cases isSubscribed coloring c.subs.falseColor <;> simp

/-- C8, scenario: view 0 holds IMG and coloring 5; subscriber 7 holds nothing.
Its three unsubscribe calls leave the state as it is; the one for coloring 5
sends nothing, as coloring 5 still has a subscriber. -/
theorem C8_unsubscribe_never_subscribed_witness :
    (∀ sub ∈ (Controller.mk (Rect.mk 0 0 10 10)
        (Subscriptions.mk [⟨0, representation.t.IMG⟩] [] [⟨0, (5 : Nat)⟩])).subs.repr,
        sub.subscriber ≠ 7)
    ∧ Controller.processUnsubscribeRepresentation
        (Controller.mk (Rect.mk 0 0 10 10)
          (Subscriptions.mk [⟨0, representation.t.IMG⟩] [] [⟨0, (5 : Nat)⟩]))
        7 representation.t.IMG
      = (Controller.mk (Rect.mk 0 0 10 10)
          (Subscriptions.mk [⟨0, representation.t.IMG⟩] [] [⟨0, (5 : Nat)⟩]), [])
    ∧ Controller.processUnsubscribeFalseColor (fun _ : Nat => representation.t.IMG)
        (Controller.mk (Rect.mk 0 0 10 10)
          (Subscriptions.mk [⟨0, representation.t.IMG⟩] [] [⟨0, (5 : Nat)⟩]))
        7 5
      = (Controller.mk (Rect.mk 0 0 10 10)
          (Subscriptions.mk [⟨0, representation.t.IMG⟩] [] [⟨0, (5 : Nat)⟩]), []) :=
  ⟨by decide,
   (C8_unsubscribe_never_subscribed (fun _ : Nat => representation.t.IMG)
      (Controller.mk (Rect.mk 0 0 10 10)
        (Subscriptions.mk [⟨0, representation.t.IMG⟩] [] [⟨0, (5 : Nat)⟩]))
      7 representation.t.IMG 0 5 (by decide) (by decide) (by decide)).1,
   (C8_unsubscribe_never_subscribed (fun _ : Nat => representation.t.IMG)
      (Controller.mk (Rect.mk 0 0 10 10)
        (Subscriptions.mk [⟨0, representation.t.IMG⟩] [] [⟨0, (5 : Nat)⟩]))
      7 representation.t.IMG 0 5 (by decide) (by decide) (by decide)).2.2⟩

/-! ## Image update notifications -/

/-- C9: for every registry state and representation `R`,
`processImageUpdate(R)` requests `computeBand(R2, b)` exactly once for each
band id (R2, b) with `R2 = R` that has at least one band subscription, and for
no other band; it requests `requestColoring(c)` (without recalc) exactly once
for each false coloring `c` with basis `R` that has at least one subscription,
and for no other coloring, however many subscribers share the band or the
coloring; the controller state is unchanged. -/
theorem C9_processImageUpdate_requests_once {Rep FC : Type}
    [DecidableEq Rep] [DecidableEq FC] (basis : FC → Rep) (c : Controller Rep FC) (R : Rep) :
    (Controller.processImageUpdate basis c R).1 = c
    ∧ (∀ (R2 : Rep) (b : Int),
        List.count (Call.computeBand R2 b) (Controller.processImageUpdate basis c R).2
          = if R2 = R ∧ isSubscribed (ImageBandId.mk R2 b) c.subs.imageBand = true then 1
            else 0)
    ∧ (∀ (coloring : FC) (recalc : Bool),
        List.count (Call.requestColoring coloring recalc)
            (Controller.processImageUpdate basis c R).2
          = if recalc = false ∧ basis coloring = R
                ∧ isSubscribed coloring c.subs.falseColor = true then 1
            else 0) := by
  refine ⟨rfl, fun R2 b => ?_, fun coloring recalc => ?_⟩
  · have h0 : List.count (Call.computeBand R2 b : Call Rep FC)
        ((Controller.fcUpdates basis c R).flatMap
          (fun coloring => [Call.pendingFalseColorUpdate coloring,
                            Call.requestColoring coloring false])) = 0 := by
      rw [List.count_eq_zero]
      simp
    have h1 := @Controller.count_computeBand_map Rep FC _ _ (Controller.bandUpdates c R)
      (ImageBandId.mk R2 b)
    simp only at h1
    unfold Controller.processImageUpdate
    rw [List.count_append, h0, h1, List.count_eq_of_nodup (Controller.nodup_bandUpdates c R),
      Nat.add_zero]
    simp only [Controller.mem_bandUpdates]
  · have h0 : List.count (Call.requestColoring coloring recalc : Call Rep FC)
        ((Controller.bandUpdates c R).map (fun ib => Call.computeBand ib.repr ib.bandx)) = 0 := by
      rw [List.count_eq_zero]
      simp
    unfold Controller.processImageUpdate
    rw [List.count_append, h0, Controller.count_requestColoring_flatMap,
      List.count_eq_of_nodup (Controller.nodup_fcUpdates basis c R), Nat.zero_add]
    simp only [Controller.mem_fcUpdates]
    by_cases hr : recalc = false
    · simp [hr]
    · simp [hr]

/-- C9, scenario: views 1 and 2 both hold band 3 of GRAD and coloring 5, view
1 also holds band 4 of IMG; every coloring has basis GRAD. An update of GRAD
requests band 3 of GRAD once and coloring 5 once. -/
theorem C9_processImageUpdate_requests_once_witness :
    (Controller.processImageUpdate (fun _ : Nat => representation.t.GRAD)
        (Controller.mk (Rect.mk 0 0 10 10)
          (Subscriptions.mk [⟨1, representation.t.GRAD⟩, ⟨2, representation.t.GRAD⟩]
            [⟨1, ⟨representation.t.GRAD, 3⟩⟩, ⟨1, ⟨representation.t.IMG, 4⟩⟩,
             ⟨2, ⟨representation.t.GRAD, 3⟩⟩]
            [⟨1, 5⟩, ⟨2, 5⟩]))
        representation.t.GRAD).2
      = [Call.computeBand representation.t.GRAD 3, Call.pendingFalseColorUpdate 5,
         Call.requestColoring 5 false]
    ∧ List.count (Call.computeBand representation.t.GRAD 3)
        (Controller.processImageUpdate (fun _ : Nat => representation.t.GRAD)
          (Controller.mk (Rect.mk 0 0 10 10)
            (Subscriptions.mk [⟨1, representation.t.GRAD⟩, ⟨2, representation.t.GRAD⟩]
              [⟨1, ⟨representation.t.GRAD, 3⟩⟩, ⟨1, ⟨representation.t.IMG, 4⟩⟩,
               ⟨2, ⟨representation.t.GRAD, 3⟩⟩]
              [⟨1, 5⟩, ⟨2, 5⟩]))
          representation.t.GRAD).2 = 1 :=
  ⟨rfl,
   ((C9_processImageUpdate_requests_once (fun _ : Nat => representation.t.GRAD)
      (Controller.mk (Rect.mk 0 0 10 10)
        (Subscriptions.mk [⟨1, representation.t.GRAD⟩, ⟨2, representation.t.GRAD⟩]
          [⟨1, ⟨representation.t.GRAD, 3⟩⟩, ⟨1, ⟨representation.t.IMG, 4⟩⟩,
           ⟨2, ⟨representation.t.GRAD, 3⟩⟩]
          [⟨1, 5⟩, ⟨2, 5⟩]))
      representation.t.GRAD).2.1 representation.t.GRAD 3).trans (by decide)⟩

/-! ## Start-up check of the image extent -/

/-- C10, counterexample: `loadImage` returns an extent of width 5 and height
0. The height is zero, yet the constructor does not exit: it creates the main
window, spawns the ROI 0,0,5,0 and shows the window. -/
theorem C10_zero_height_passes_check :
    (Controller.ctor exampleEnv representation.all representation.t.IMG 0 ⟨0, 0, 5, 0⟩ true
        (fun c : Controller representation.t Nat => (c, []))).trace
      = [Call.startQueue, Call.loadImage, Call.newMainWindow, Call.windowInitUI,
         Call.initFalseColor, Call.lmSetDimensions 0 5, Call.initIlluminant,
         Call.initGraphSegmentation, Call.dvcInit, Call.initDocks, Call.windowInitSignals,
         Call.lmAddLabel, Call.lmUpdateROI ⟨0, 0, 5, 0⟩, Call.illummSetRoi ⟨0, 0, 5, 0⟩,
         Call.spawn representation.t.IMG ⟨0, 0, 5, 0⟩ (-1),
         Call.setImage representation.t.IMG 10 ⟨0, 0, 5, 0⟩,
         Call.dvcInitSubscriptions, Call.windowShow]
    ∧ (Controller.ctor exampleEnv representation.all representation.t.IMG 0 ⟨0, 0, 5, 0⟩ true
        (fun c : Controller representation.t Nat => (c, []))).result
      = Except.ok ⟨⟨0, 0, 5, 0⟩, ⟨[⟨0, representation.t.IMG⟩], [], []⟩⟩ :=
  ⟨rfl, rfl⟩

/-- C10, amended: for every extent returned by `loadImage`: if its width is
zero or negative, the constructor requests `exit(4)` right after `loadImage`
and nothing else (no window is created or shown, no ROI is spawned); if its
width is at least 1, whatever its height, the constructor does not exit at
this check: it goes on to create the main window and yields a controller. -/
theorem C10_exit_iff_width_below_one {Rep FC : Type}
    [DecidableEq Rep] [DecidableEq FC] (E : Env Rep) (all : List Rep) (IMG : Rep)
    (this : QObject) (d : Rect) (labelfileIsEmpty : Bool)
    (initSubscriptions : Controller Rep FC → Controller Rep FC × List (Call Rep FC)) :
    (d.width < 1 →
      (Controller.ctor E all IMG this d labelfileIsEmpty initSubscriptions).trace
        = [Call.startQueue, Call.loadImage, Call.exit 4]
      ∧ (Controller.ctor E all IMG this d labelfileIsEmpty initSubscriptions).result
        = Except.error 4)
    ∧ (1 ≤ d.width →
      (Controller.ctor E all IMG this d labelfileIsEmpty initSubscriptions).trace.take 3
        = [Call.startQueue, Call.loadImage, Call.newMainWindow]
      ∧ ∃ c, (Controller.ctor E all IMG this d labelfileIsEmpty initSubscriptions).result
        = Except.ok c) := by
  constructor
  · intro h
    simp only [Controller.ctor, h, if_true]
    exact ⟨rfl, trivial⟩
  · intro h
    have h' : ¬ d.width < 1 := not_lt.2 h
    simp only [Controller.ctor, h', if_false]
    exact ⟨rfl, _, rfl⟩

/-- C10, scenario: a failed load (empty extent) exits with code 4 after
`loadImage`; a 1000x1000 image passes the check. -/
theorem C10_exit_iff_width_below_one_witness :
    (Rect.empty.width < 1
      ∧ (Controller.ctor exampleEnv representation.all representation.t.IMG 0 Rect.empty true
          (fun c : Controller representation.t Nat => (c, []))).trace
        = [Call.startQueue, Call.loadImage, Call.exit 4])
    ∧ ((1 : Int) ≤ (Rect.mk 0 0 1000 1000).width
      ∧ ∃ c, (Controller.ctor exampleEnv representation.all representation.t.IMG 0
          ⟨0, 0, 1000, 1000⟩ true
          (fun c : Controller representation.t Nat => (c, []))).result = Except.ok c) :=
  ⟨⟨by decide,
    ((C10_exit_iff_width_below_one exampleEnv representation.all representation.t.IMG 0
      Rect.empty true (fun c : Controller representation.t Nat => (c, []))).1 (by decide)).1⟩,
   ⟨by decide,
    ((C10_exit_iff_width_below_one exampleEnv representation.all representation.t.IMG 0
      ⟨0, 0, 1000, 1000⟩ true
      (fun c : Controller representation.t Nat => (c, []))).2 (by decide)).2⟩⟩

/-! ## Cancellation of queued tasks -/

/-- C11, counterexample: IMG is subscribed and `spawnROI` moves the ROI to
50,0,100,100. New work is submitted (`subImage`, `spawn`, `addImage`), but no
`queue.cancelTasks()` is requested; the same holds for `invalidateROI`. -/
theorem C11_spawnROI_without_cancelTasks :
    (Controller.spawnROI exampleEnv representation.all
        (exampleController [⟨0, representation.t.IMG⟩]) ⟨50, 0, 100, 100⟩).2
      = [Call.subImage representation.t.IMG [⟨0, 0, 50, 100⟩] ⟨50, 0, 100, 100⟩,
         Call.lmUpdateROI ⟨50, 0, 100, 100⟩, Call.illummSetRoi ⟨50, 0, 100, 100⟩,
         Call.spawn representation.t.IMG ⟨50, 0, 100, 100⟩ (-1),
         Call.addImage representation.t.IMG (some 20) [⟨100, 0, 50, 100⟩] ⟨50, 0, 100, 100⟩]
    ∧ Call.queueCancelTasks ∉ (Controller.spawnROI exampleEnv representation.all
        (exampleController [⟨0, representation.t.IMG⟩]) ⟨50, 0, 100, 100⟩).2
    ∧ (Controller.invalidateROI exampleEnv representation.all
        (exampleController [⟨0, representation.t.IMG⟩]) ⟨50, 0, 100, 100⟩).2
      = [Call.invalidateROI,
         Call.lmUpdateROI ⟨50, 0, 100, 100⟩, Call.illummSetRoi ⟨50, 0, 100, 100⟩,
         Call.spawn representation.t.IMG ⟨50, 0, 100, 100⟩ (-1),
         Call.setImage representation.t.IMG 10 ⟨50, 0, 100, 100⟩]
    ∧ Call.queueCancelTasks ∉ (Controller.invalidateROI exampleEnv representation.all
        (exampleController [⟨0, representation.t.IMG⟩]) ⟨50, 0, 100, 100⟩).2 :=
  ⟨rfl, by decide, rfl, by decide⟩

/-- C11, amended: `rescaleSpectrum(bands)` requests `queue.cancelTasks()` as
its first request, before all requests of the ROI update it then runs, and
only once; `spawnROI(roi)` and `invalidateROI(roi)` request no cancellation at
all; `stopQueue` requests `queue.halt()` and then `queuethread->join()`,
unconditionally. -/
theorem C11_cancelTasks_only_in_rescaleSpectrum {Rep FC : Type}
    [DecidableEq Rep] [DecidableEq FC] (E : Env Rep) (all : List Rep)
    (c : Controller Rep FC) (roi : Rect) (bands : Int) :
    (Controller.rescaleSpectrum E all c bands).2
        = Call.queueCancelTasks :: (Controller.updateROI E all c false Rect.empty bands).2
    ∧ Call.queueCancelTasks ∉ (Controller.updateROI E all c false Rect.empty bands).2
    ∧ Call.queueCancelTasks ∉ (Controller.spawnROI E all c roi).2
    ∧ Call.queueCancelTasks ∉ (Controller.invalidateROI E all c roi).2
    ∧ (Controller.stopQueue : List (Call Rep FC)) = [Call.queueHalt, Call.queuethreadJoin] :=
  ⟨rfl, Controller.queueCancelTasks_not_mem_updateROI E all c false Rect.empty bands,
   Controller.queueCancelTasks_not_mem_updateROI E all c true roi (-1),
   Controller.queueCancelTasks_not_mem_updateROI E all c false roi (-1), rfl⟩

/-! ## The permanent subscription of the raw image -/

/-- C12: once the controller has subscribed itself (identity `this`) to IMG,
as its constructor does, `haveSubscriber(IMG)` is true after every finite
sequence of `processSubscribeRepresentation`,
`processUnsubscribeRepresentation`, `processSubscribeImageBand`,
`processUnsubscribeImageBand`, `processSubscribeFalseColor`,
`processUnsubscribeFalseColor`, `processRecalcFalseColor`,
`processImageUpdate` and `updateROI` calls whose subscriber arguments all
differ from `this`: the pair (`this`, IMG) stays in the representation set.
The same holds from the state the constructor yields, when the distribution
view start-up is such a sequence of calls. -/
theorem C12_IMG_stays_subscribed {Rep FC : Type}
    [DecidableEq Rep] [DecidableEq FC] (all : List Rep) (basis : FC → Rep)
    (IMG : Rep) (this : QObject) (ops : List (Env Rep × Op Rep FC))
    (hops : ∀ p ∈ ops, p.2.subscriber ≠ some this) :
    (∀ (E0 : Env Rep) (c0 : Controller Rep FC),
      (⟨this, IMG⟩ : Subscription Rep)
          ∈ (Controller.run all basis ops
              (Controller.processSubscribeRepresentation E0 c0 this IMG).1).1.subs.repr
      ∧ Controller.haveSubscriber
          (Controller.run all basis ops
            (Controller.processSubscribeRepresentation E0 c0 this IMG).1).1 IMG = true)
    ∧ (∀ (E0 : Env Rep) (d : Rect) (labelfileIsEmpty : Bool)
        (ops0 : List (Env Rep × Op Rep FC)),
        1 ≤ d.width → (∀ p ∈ ops0, p.2.subscriber ≠ some this) →
        ∃ c : Controller Rep FC,
          (Controller.ctor E0 all IMG this d labelfileIsEmpty
            (Controller.run all basis ops0)).result = Except.ok c
          ∧ Controller.haveSubscriber c IMG = true
          ∧ Controller.haveSubscriber (Controller.run all basis ops c).1 IMG = true) := by
  have hstart : ∀ (E0 : Env Rep) (c0 : Controller Rep FC),
      (⟨this, IMG⟩ : Subscription Rep)
        ∈ (Controller.processSubscribeRepresentation E0 c0 this IMG).1.subs.repr := by
    intro E0 c0
    rw [Controller.processSubscribeRepresentation_fst]
    exact (mem_setInsert _ _ _).2 (Or.inl rfl)
  constructor
  · intro E0 c0
    have hm := Controller.run_keeps_pair all basis ops _ this IMG hops (hstart E0 c0)
    exact ⟨hm, Controller.haveSubscriber_of_mem _ this IMG hm⟩
  · intro E0 d lbl ops0 hw hops0
    have hw' : ¬ d.width < 1 := not_lt.2 hw
    have hm0 := Controller.run_keeps_pair all basis ops0 _ this IMG hops0
      (hstart E0 (Controller.spawnROI E0 all
        ⟨Controller.initialROI d, ⟨[], [], []⟩⟩ Rect.empty).1)
    refine ⟨(Controller.run all basis ops0
        (Controller.processSubscribeRepresentation E0
          (Controller.spawnROI E0 all ⟨Controller.initialROI d, ⟨[], [], []⟩⟩ Rect.empty).1
          this IMG).1).1, ?_, ?_, ?_⟩
    · simp only [Controller.ctor, hw', if_false]
    · exact Controller.haveSubscriber_of_mem _ this IMG hm0
    · exact Controller.haveSubscriber_of_mem _ this IMG
        (Controller.run_keeps_pair all basis ops _ this IMG hops hm0)

/-- C12, scenario: the controller (identity 0) subscribes itself to IMG; view
1 then unsubscribes from IMG, subscribes to and unsubscribes from band 3 of
IMG and from a false coloring based on IMG, and the ROI is invalidated. IMG
still has a subscriber, and the representation set holds the pair (0, IMG)
only. -/
theorem C12_IMG_stays_subscribed_witness :
    (∀ p ∈ [(exampleEnv, (Op.unsubscribeRepresentation 1 representation.t.IMG :
                Op representation.t Nat)),
            (exampleEnv, Op.subscribeImageBand 1 representation.t.IMG 3),
            (exampleEnv, Op.unsubscribeImageBand 1 representation.t.IMG 3),
            (exampleEnv, Op.unsubscribeFalseColor 1 5),
            (exampleEnv, Op.updateROI false ⟨0, 0, 20, 20⟩ (-1))],
        p.2.subscriber ≠ some 0)
    ∧ Controller.haveSubscriber
        (Controller.run representation.all (fun _ : Nat => representation.t.IMG)
          [(exampleEnv, Op.unsubscribeRepresentation 1 representation.t.IMG),
           (exampleEnv, Op.subscribeImageBand 1 representation.t.IMG 3),
           (exampleEnv, Op.unsubscribeImageBand 1 representation.t.IMG 3),
           (exampleEnv, Op.unsubscribeFalseColor 1 5),
           (exampleEnv, Op.updateROI false ⟨0, 0, 20, 20⟩ (-1))]
          (Controller.processSubscribeRepresentation exampleEnv (exampleController [])
            0 representation.t.IMG).1).1 representation.t.IMG = true
    ∧ (Controller.run representation.all (fun _ : Nat => representation.t.IMG)
          [(exampleEnv, Op.unsubscribeRepresentation 1 representation.t.IMG),
           (exampleEnv, Op.subscribeImageBand 1 representation.t.IMG 3),
           (exampleEnv, Op.unsubscribeImageBand 1 representation.t.IMG 3),
           (exampleEnv, Op.unsubscribeFalseColor 1 5),
           (exampleEnv, Op.updateROI false ⟨0, 0, 20, 20⟩ (-1))]
          (Controller.processSubscribeRepresentation exampleEnv (exampleController [])
            0 representation.t.IMG).1).1.subs.repr = [⟨0, representation.t.IMG⟩] :=
  ⟨by decide,
   ((C12_IMG_stays_subscribed representation.all (fun _ : Nat => representation.t.IMG)
      representation.t.IMG 0
      [(exampleEnv, Op.unsubscribeRepresentation 1 representation.t.IMG),
       (exampleEnv, Op.subscribeImageBand 1 representation.t.IMG 3),
       (exampleEnv, Op.unsubscribeImageBand 1 representation.t.IMG 3),
       (exampleEnv, Op.unsubscribeFalseColor 1 5),
       (exampleEnv, Op.updateROI false ⟨0, 0, 20, 20⟩ (-1))]
      (by decide)).1 exampleEnv (exampleController [])).2,
   rfl⟩

/-! ## Recycled datasets and the payload update -/

/-- C13: let `all()` list every representation once. In every `updateROI` call
in which reuse remains true (requested, and the transform reported
profitable), the trace is: one `subImage(R, sub, roi)` per subscribed
representation, then the two metadata requests, then per subscribed
representation `spawn` and `addImage(R, handle, add, roi)`, where `handle` is
what `subImage(R, sub, roi)` returned; so each subscribed `R` gets exactly one
`subImage` (before the metadata pass and every `spawn`) and exactly one
`addImage`, and `setImage` is never requested. In every call in which reuse is
false, `subImage` and `addImage` are never requested and each subscribed `R`
gets exactly one `setImage(R, image of R, roi)`. -/
theorem C13_updateROI_recycle_then_add_or_set {Rep FC : Type}
    [DecidableEq Rep] [DecidableEq FC] (E : Env Rep) (all : List Rep)
    (c : Controller Rep FC) (reuse : Bool) (roi : Rect) (bands : Int)
    (hnd : all.Nodup) :
    let r := Controller.updateROIResult E all c reuse roi bands
    let trace := (Controller.updateROI E all c reuse roi bands).2
    (r.reuse = true ↔ reuse = true ∧ (E.rectTransform E.getROI r.roi).1 = true)
    ∧ (r.reuse = true →
        r.sub = (E.rectTransform E.getROI r.roi).2.1
        ∧ r.add = (E.rectTransform E.getROI r.roi).2.2
        ∧ trace
          = (all.filter (Controller.haveSubscriber c)).map
              (fun type => Call.subImage type r.sub r.roi)
            ++ [Call.lmUpdateROI r.roi, Call.illummSetRoi r.roi]
            ++ (all.filter (Controller.haveSubscriber c)).flatMap
              (fun type => [Call.spawn type r.roi bands,
                Call.addImage type (E.subImage type r.sub r.roi) r.add r.roi])
        ∧ (∀ R ∈ all, Controller.haveSubscriber c R = true →
            List.count (Call.subImage R r.sub r.roi) trace = 1
            ∧ List.count (Call.addImage R (E.subImage R r.sub r.roi) r.add r.roi) trace = 1)
        ∧ (∀ R sub ro, Call.subImage R sub ro ∈ trace → sub = r.sub ∧ ro = r.roi)
        ∧ (∀ R h add ro, Call.addImage R h add ro ∈ trace →
            h = E.subImage R r.sub r.roi ∧ add = r.add ∧ ro = r.roi)
        ∧ (∀ R img ro, Call.setImage R img ro ∉ trace))
    ∧ (r.reuse = false →
        trace
          = (if reuse then [] else [Call.invalidateROI])
            ++ [Call.lmUpdateROI r.roi, Call.illummSetRoi r.roi]
            ++ (all.filter (Controller.haveSubscriber c)).flatMap
              (fun type => [Call.spawn type r.roi bands,
                Call.setImage type (E.getImage type) r.roi])
        ∧ (∀ R sub ro, Call.subImage R sub ro ∉ trace)
        ∧ (∀ R h add ro, Call.addImage R h add ro ∉ trace)
        ∧ (∀ R ∈ all, Controller.haveSubscriber c R = true →
            List.count (Call.setImage R (E.getImage R) r.roi) trace = 1)
        ∧ (∀ R img ro, Call.setImage R img ro ∈ trace →
            img = E.getImage R ∧ ro = r.roi)) := by
  intro r trace
  have hrdef : r = Controller.updateROIResult E all c reuse roi bands := rfl
  have htdef : trace = (Controller.updateROI E all c reuse roi bands).2 := rfl
  clear_value r trace
  have hreuse : r.reuse = (if reuse then (E.rectTransform E.getROI r.roi).1 else false) := by
    rw [hrdef]
    exact Controller.updateROIResult_reuse E all c reuse roi bands
  refine ⟨?_, fun hr => ?_, fun hr => ?_⟩
  · rw [hreuse]
    cases reuse <;> simp
  · have hcaller : reuse = true := by
      rw [hreuse] at hr
      cases reuse
      · simp at hr
      · rfl
    have htr : trace
        = (all.filter (Controller.haveSubscriber c)).map
            (fun type => Call.subImage type r.sub r.roi)
          ++ [Call.lmUpdateROI r.roi, Call.illummSetRoi r.roi]
          ++ (all.filter (Controller.haveSubscriber c)).flatMap
            (fun type => [Call.spawn type r.roi bands,
              Call.addImage type (E.subImage type r.sub r.roi) r.add r.roi]) := by
      rw [htdef, hrdef]
      exact Controller.updateROI_trace_reuse E all c reuse roi bands (hrdef ▸ hr)
    refine ⟨?_, ?_, htr, ?_, ?_, ?_, ?_⟩
    · rw [hrdef, hcaller]
      rfl
    · rw [hrdef, hcaller]
      rfl
    · intro R hR hs
      have h1 := Controller.count_filter_haveSubscriber c all hnd R hR hs
      constructor
      · have z1 : List.count (Call.subImage R r.sub r.roi : Call Rep FC)
            [Call.lmUpdateROI r.roi, Call.illummSetRoi r.roi] = 0 := by
          rw [List.count_eq_zero]
          simp
        have z2 : List.count (Call.subImage R r.sub r.roi : Call Rep FC)
            ((all.filter (Controller.haveSubscriber c)).flatMap
              (fun type => [Call.spawn type r.roi bands,
                Call.addImage type (E.subImage type r.sub r.roi) r.add r.roi])) = 0 := by
          rw [List.count_eq_zero]
          simp
        rw [htr, List.count_append, List.count_append, z1, z2,
          Controller.count_subImage_map, h1]
      · have z1 : List.count
            (Call.addImage R (E.subImage R r.sub r.roi) r.add r.roi : Call Rep FC)
            [Call.lmUpdateROI r.roi, Call.illummSetRoi r.roi] = 0 := by
          rw [List.count_eq_zero]
          simp
        have z2 : List.count
            (Call.addImage R (E.subImage R r.sub r.roi) r.add r.roi : Call Rep FC)
            ((all.filter (Controller.haveSubscriber c)).map
              (fun type => Call.subImage type r.sub r.roi)) = 0 := by
          rw [List.count_eq_zero]
          simp
        rw [htr, List.count_append, List.count_append, z1, z2,
          Controller.count_addImage_flatMap _ R (fun type => E.subImage type r.sub r.roi),
          h1]
    · intro R sub ro hm
      rw [htr] at hm
      simp only [List.mem_append, List.mem_map, List.mem_flatMap, List.mem_cons,
        List.mem_singleton, List.not_mem_nil, or_false] at hm
      rcases hm with (⟨t, _, ht⟩ | hm | hm) | ⟨t, _, ht | ht⟩
      · simp only [Call.subImage.injEq] at ht
        exact ⟨ht.2.1.symm, ht.2.2.symm⟩
      · exact Call.noConfusion hm
      · exact Call.noConfusion hm
      · exact Call.noConfusion ht
      · exact Call.noConfusion ht
    · intro R h add ro hm
      rw [htr] at hm
      simp only [List.mem_append, List.mem_map, List.mem_flatMap, List.mem_cons,
        List.mem_singleton, List.not_mem_nil, or_false] at hm
      rcases hm with (⟨t, _, ht⟩ | hm | hm) | ⟨t, _, ht | ht⟩
      · exact Call.noConfusion ht
      · exact Call.noConfusion hm
      · exact Call.noConfusion hm
      · exact Call.noConfusion ht
      · simp only [Call.addImage.injEq] at ht
        obtain ⟨rfl, h2, h3, h4⟩ := ht
        exact ⟨h2, h3, h4⟩
    · intro R img ro hm
      rw [htr] at hm
      simp only [List.mem_append, List.mem_map, List.mem_flatMap, List.mem_cons,
        List.mem_singleton, List.not_mem_nil, or_false] at hm
      rcases hm with (⟨t, _, ht⟩ | hm | hm) | ⟨t, _, ht | ht⟩
      · exact Call.noConfusion ht
      · exact Call.noConfusion hm
      · exact Call.noConfusion hm
      · exact Call.noConfusion ht
      · exact Call.noConfusion ht
  · have htr : trace
        = (if reuse then [] else [Call.invalidateROI])
          ++ [Call.lmUpdateROI r.roi, Call.illummSetRoi r.roi]
          ++ (all.filter (Controller.haveSubscriber c)).flatMap
            (fun type => [Call.spawn type r.roi bands,
              Call.setImage type (E.getImage type) r.roi]) := by
      rw [htdef, hrdef]
      exact Controller.updateROI_trace_noreuse E all c reuse roi bands (hrdef ▸ hr)
    have hmem : ∀ x : Call Rep FC, x ∈ trace →
        x = Call.invalidateROI ∨ x = Call.lmUpdateROI r.roi ∨ x = Call.illummSetRoi r.roi
        ∨ ∃ t, x = Call.spawn t r.roi bands ∨ x = Call.setImage t (E.getImage t) r.roi := by
      intro x hm
      rw [htr] at hm
      simp only [List.mem_append, List.mem_flatMap, List.mem_cons,
        List.mem_singleton, List.not_mem_nil, or_false] at hm
      rcases hm with (hm | hm | hm) | ⟨t, _, ht⟩
      · cases reuse
        · simp only [Bool.false_eq_true, if_false, List.mem_singleton] at hm
          exact Or.inl hm
        · simp at hm
      · exact Or.inr (Or.inl hm)
      · exact Or.inr (Or.inr (Or.inl hm))
      · exact Or.inr (Or.inr (Or.inr ⟨t, ht⟩))
    refine ⟨htr, ?_, ?_, ?_, ?_⟩
    · intro R sub ro hm
      rcases hmem _ hm with h | h | h | ⟨t, h | h⟩ <;> exact Call.noConfusion h
    · intro R h add ro hm
      rcases hmem _ hm with h | h | h | ⟨t, h | h⟩ <;> exact Call.noConfusion h
    · intro R hR hs
      have h1 := Controller.count_filter_haveSubscriber c all hnd R hR hs
      have z1 : List.count (Call.setImage R (E.getImage R) r.roi : Call Rep FC)
          ((if reuse then [] else [Call.invalidateROI])
            ++ [Call.lmUpdateROI r.roi, Call.illummSetRoi r.roi]) = 0 := by
        rw [List.count_eq_zero]
        cases reuse <;> simp
      rw [htr, List.count_append, z1,
        Controller.count_setImage_flatMap _ R (fun type => E.getImage type), h1]
    · intro R img ro hm
      rcases hmem _ hm with h | h | h | ⟨t, h | h⟩
      · exact Call.noConfusion h
      · exact Call.noConfusion h
      · exact Call.noConfusion h
      · exact Call.noConfusion h
      · simp only [Call.setImage.injEq] at h
        obtain ⟨rfl, h2, h3⟩ := h
        exact ⟨h2, h3⟩

/-- C13, scenario: IMG and GRAD are subscribed. With reuse kept, GRAD gets one
`subImage` and one `addImage` carrying the handle 21 that `subImage` returned
for GRAD; when the transform reports not profitable, GRAD gets one
`setImage` with its image handle 11 and no `subImage`. -/
theorem C13_updateROI_recycle_then_add_or_set_witness :
    representation.all.Nodup
    ∧ (Controller.updateROIResult exampleEnv representation.all
        (exampleController [⟨0, representation.t.IMG⟩, ⟨1, representation.t.GRAD⟩])
        true ⟨50, 0, 100, 100⟩ (-1)).reuse = true
    ∧ List.count (Call.subImage representation.t.GRAD [⟨0, 0, 50, 100⟩] ⟨50, 0, 100, 100⟩)
        (Controller.updateROI exampleEnv representation.all
          (exampleController [⟨0, representation.t.IMG⟩, ⟨1, representation.t.GRAD⟩])
          true ⟨50, 0, 100, 100⟩ (-1)).2 = 1
    ∧ List.count (Call.addImage representation.t.GRAD (some 21) [⟨100, 0, 50, 100⟩]
          ⟨50, 0, 100, 100⟩)
        (Controller.updateROI exampleEnv representation.all
          (exampleController [⟨0, representation.t.IMG⟩, ⟨1, representation.t.GRAD⟩])
          true ⟨50, 0, 100, 100⟩ (-1)).2 = 1
    ∧ (Controller.updateROIResult unprofitableEnv representation.all
        (exampleController [⟨0, representation.t.IMG⟩, ⟨1, representation.t.GRAD⟩])
        true ⟨50, 0, 100, 100⟩ (-1)).reuse = false
    ∧ List.count (Call.setImage representation.t.GRAD 11 ⟨50, 0, 100, 100⟩)
        (Controller.updateROI unprofitableEnv representation.all
          (exampleController [⟨0, representation.t.IMG⟩, ⟨1, representation.t.GRAD⟩])
          true ⟨50, 0, 100, 100⟩ (-1)).2 = 1
    ∧ (∀ sub ro, Call.subImage representation.t.GRAD sub ro ∉
        (Controller.updateROI unprofitableEnv representation.all
          (exampleController [⟨0, representation.t.IMG⟩, ⟨1, representation.t.GRAD⟩])
          true ⟨50, 0, 100, 100⟩ (-1)).2) :=
  ⟨by decide, rfl,
   (((C13_updateROI_recycle_then_add_or_set exampleEnv representation.all
      (exampleController [⟨0, representation.t.IMG⟩, ⟨1, representation.t.GRAD⟩])
      true ⟨50, 0, 100, 100⟩ (-1) (by decide)).2.1 rfl).2.2.2.1
      representation.t.GRAD (by decide) rfl).1,
   (((C13_updateROI_recycle_then_add_or_set exampleEnv representation.all
      (exampleController [⟨0, representation.t.IMG⟩, ⟨1, representation.t.GRAD⟩])
      true ⟨50, 0, 100, 100⟩ (-1) (by decide)).2.1 rfl).2.2.2.1
      representation.t.GRAD (by decide) rfl).2,
   rfl,
   ((C13_updateROI_recycle_then_add_or_set unprofitableEnv representation.all
      (exampleController [⟨0, representation.t.IMG⟩, ⟨1, representation.t.GRAD⟩])
      true ⟨50, 0, 100, 100⟩ (-1) (by decide)).2.2 rfl).2.2.2.1
      representation.t.GRAD (by decide) rfl,
   ((C13_updateROI_recycle_then_add_or_set unprofitableEnv representation.all
      (exampleController [⟨0, representation.t.IMG⟩, ⟨1, representation.t.GRAD⟩])
      true ⟨50, 0, 100, 100⟩ (-1) (by decide)).2.2 rfl).2.1 representation.t.GRAD⟩
